import Mathlib

/-
Verification development for the MSSMT persistence layer:
the node model and empty-subtree table, the redb key-value backend
(crates/cdk-redb/src/mint/mssmt.rs), the sqlite relational backend
(crates/cdk-sqlite/src/mssmt.rs), the shared wrapper ArcTreeStore
(crates/cdk-common/src/common.rs), and the hot-swappable mint
configuration (crates/cdk/src/mint/config.rs).

Hashes are idealized as the free algebra of the two hashing contracts
(leaf digest of (value, sum); branch digest of (left digest, right digest,
sum)), which makes the digest injective: this is the standard
collision-free idealization of SHA-256.  Machine integers (u64 sums) are
modelled as Nat; the byte-level record serializers are modelled separately
over byte lists with sums reduced mod 2^64 where they are written out.
-/

set_option maxRecDepth 4000

/-- Modelled from the spec: the opaque 32-byte digest produced by the keyed
hash.  A leaf's digest is a deterministic function of (value, sum); a
branch's digest is a deterministic function of (left digest, right digest,
sum).  The free-algebra representation idealizes collision resistance. -/
inductive Digest where
  | leafD (value : List Nat) (sum : Nat)
  | branchD (left right : Digest) (sum : Nat)
deriving DecidableEq

/-- Modelled from the spec: the tagged node union (Leaf, Branch, CompactLeaf,
ComputedNode) of the external node model, as consumed by both backends.
Branch, CompactLeaf and ComputedNode carry their digest explicitly (the
unsafe new_with_hash constructors assign it); a leaf's digest is always
recomputed from its content. -/
inductive NodeM where
  | leaf (value : List Nat) (sum : Nat)
  | branch (left right : NodeM) (hash : Digest) (sum : Nat)
  | compact (hash : Digest) (value : List Nat) (sum : Nat) (key : List Nat)
  | computed (hash : Digest) (sum : Nat)
deriving DecidableEq

/-- The sum carried by a node (Node::sum in the node model). -/
def nodeSum : NodeM → Nat
  | .leaf _ s => s
  | .branch _ _ _ s => s
  | .compact _ _ s _ => s
  | .computed _ s => s

/-- The digest of a node (Node::hash in the node model). -/
def nodeHash : NodeM → Digest
  | .leaf v s => .leafD v s
  | .branch _ _ h _ => h
  | .compact h _ _ _ => h
  | .computed h _ => h

/-- Leaf node of the node model: an opaque byte payload and a sum. -/
structure Leaf where
  value : List Nat
  sum : Nat
deriving DecidableEq

/-- Leaf as a Node. -/
def Leaf.toNode (l : Leaf) : NodeM := .leaf l.value l.sum

/-- Leaf::hash — a deterministic function of (value, sum). -/
def Leaf.hash (l : Leaf) : Digest := .leafD l.value l.sum

/-- Branch node of the node model, with its cached digest. -/
structure Branch where
  left : NodeM
  right : NodeM
  hash : Digest
  sum : Nat
deriving DecidableEq

/-- Branch as a Node. -/
def Branch.toNode (b : Branch) : NodeM := .branch b.left b.right b.hash b.sum

/-- Modelled from the spec: the safe Branch constructor.  Its sum is the sum
of its two children and its digest is computed from (left digest, right
digest, sum). -/
def Branch.new (l r : NodeM) : Branch :=
  ⟨l, r, .branchD (nodeHash l) (nodeHash r) (nodeSum l + nodeSum r),
    nodeSum l + nodeSum r⟩

/-- The unsafe trusted Branch constructor (Branch::new_with_hash): assigns a
previously-known digest and sum without recomputation.  Used by the storage
layer when reading records back. -/
def Branch.new_with_hash (l r : NodeM) (h : Digest) (s : Nat) : Branch :=
  ⟨l, r, h, s⟩

/-- Compact leaf of the node model: digest, terminal leaf, and full key. -/
structure CompactLeaf where
  hash : Digest
  leaf : Leaf
  key : List Nat
deriving DecidableEq

/-- CompactLeaf as a Node. -/
def CompactLeaf.toNode (c : CompactLeaf) : NodeM :=
  .compact c.hash c.leaf.value c.leaf.sum c.key

/-- The unsafe trusted CompactLeaf constructor
(CompactLeaf::new_with_hash). -/
def CompactLeaf.new_with_hash (h : Digest) (l : Leaf) (k : List Nat) :
    CompactLeaf :=
  ⟨h, l, k⟩

/-- Modelled from the spec: the empty subtree that is k levels above leaf
depth.  Level 0 is the leaf with empty value and sum 0; each higher level is
the safe branch over two copies of the next-lower level. -/
def emptyNodeAt : Nat → NodeM
  | 0 => (Leaf.mk [] 0).toNode
  | k + 1 => (Branch.new (emptyNodeAt k) (emptyNodeAt k)).toNode

/-- Modelled from the spec: entry i of the 257-entry empty-subtree table
(EmptyTree::empty_tree), indexed by depth 0..=256; entry 256 is the empty
leaf and entry i is the empty branch over two copies of entry (i+1). -/
def emptyTreeNode (i : Nat) : NodeM := emptyNodeAt (256 - i)

/-- The digest stored in entry i of the empty-subtree table. -/
def emptyHash (i : Nat) : Digest := nodeHash (emptyTreeNode i)

/-- Every empty subtree carries sum 0. -/
theorem emptyNodeAt_sum (k : Nat) : nodeSum (emptyNodeAt k) = 0 := by
  induction k with
  | zero => rfl
  | succ k ih =>
      show nodeSum (emptyNodeAt k) + nodeSum (emptyNodeAt k) = 0
      rw [ih]

/-- For depths strictly above leaf depth the empty node is a branch whose
children are the empty nodes of the next level down. -/
theorem emptyNodeAt_succ (k : Nat) :
    emptyNodeAt (k + 1) =
      .branch (emptyNodeAt k) (emptyNodeAt k)
        (.branchD (nodeHash (emptyNodeAt k)) (nodeHash (emptyNodeAt k))
          (nodeSum (emptyNodeAt k) + nodeSum (emptyNodeAt k)))
        (nodeSum (emptyNodeAt k) + nodeSum (emptyNodeAt k)) := rfl

/-- Empty subtrees at distinct consecutive levels are distinct nodes. -/
theorem emptyNodeAt_succ_ne (k : Nat) : emptyNodeAt (k + 1) ≠ emptyNodeAt k := by
  induction k with
  | zero => simp [emptyNodeAt, Branch.new, Branch.toNode, Leaf.toNode]
  | succ k ih =>
      intro h
      rw [emptyNodeAt_succ (k + 1), emptyNodeAt_succ k] at h
      simp only [NodeM.branch.injEq] at h
      exact ih h.1

/-- Association-list lookup keyed by decidable equality; first match wins,
mirroring a keyed table probe. -/
def assocFind {α β : Type} [DecidableEq α] (l : List (α × β)) (k : α) :
    Option β :=
  (l.find? (fun e => decide (e.1 = k))).map (fun e => e.2)

/-- Association-list upsert: replaces any record at the key, as redb's
table.insert and sqlite's upsert do. -/
def assocPut {α β : Type} [DecidableEq α] (l : List (α × β)) (k : α) (v : β) :
    List (α × β) :=
  (k, v) :: l.filter (fun e => !decide (e.1 = k))

/-- Association-list delete: removes the record at the key, a no-op when the
key is absent. -/
def assocDel {α β : Type} [DecidableEq α] (l : List (α × β)) (k : α) :
    List (α × β) :=
  l.filter (fun e => !decide (e.1 = k))

theorem assocFind_put_self {α β : Type} [DecidableEq α]
    (l : List (α × β)) (k : α) (v : β) : assocFind (assocPut l k v) k = some v := by
  simp [assocFind, assocPut, List.find?]

theorem assocFind_del_other {α β : Type} [DecidableEq α]
    (l : List (α × β)) (k k' : α) (h : k' ≠ k) :
    assocFind (assocDel l k) k' = assocFind l k' := by
  simp only [assocFind, assocDel]
  induction l with
  | nil => rfl
  | cons e t ih =>
      by_cases he : e.1 = k
      · rw [List.filter_cons_of_neg (by simp [he])]
        rw [List.find?_cons_of_neg _
          (by simp only [decide_eq_true_eq]; exact fun hh => h (hh.symm.trans he))]
        exact ih
      · rw [List.filter_cons_of_pos (by simp [he])]
        by_cases he' : e.1 = k'
        · rw [List.find?_cons_of_pos _ (by simp [he']),
            List.find?_cons_of_pos _ (by simp [he'])]
        · rw [List.find?_cons_of_neg _ (by simp [he']),
            List.find?_cons_of_neg _ (by simp [he'])]
          exact ih

theorem assocFind_put_other {α β : Type} [DecidableEq α]
    (l : List (α × β)) (k k' : α) (v : β) (h : k' ≠ k) :
    assocFind (assocPut l k v) k' = assocFind l k' := by
  have hstep : assocFind (assocPut l k v) k' = assocFind (assocDel l k) k' := by
    simp only [assocFind, assocPut, assocDel]
    rw [List.find?_cons_of_neg _
      (by simp only [decide_eq_true_eq]; exact fun hh => h hh.symm)]
  rw [hstep, assocFind_del_other l k k' h]

theorem assocPut_put_self {α β : Type} [DecidableEq α]
    (l : List (α × β)) (k : α) (v : β) :
    assocPut (assocPut l k v) k v = assocPut l k v := by
  simp [assocPut, List.filter_filter]

/-- The serialized branch record of the key-value backend: left digest,
right digest, sum (serialize_branch field order, with the byte encoding
factored out; see the byte-level serializers below). -/
structure BranchRec where
  lh : Digest
  rh : Digest
  sum : Nat
deriving DecidableEq

/-- The serialized leaf record of the key-value backend: sum, then value
(serialize_leaf field order). -/
structure LeafRec where
  sum : Nat
  value : List Nat
deriving DecidableEq

/-- The serialized compact-leaf record of the key-value backend: full key,
then the leaf record (serialize_compact_leaf field order). -/
structure CompactRec where
  key : List Nat
  sum : Nat
  value : List Nat
deriving DecidableEq

/-- The four logical tables of the redb backend.  Every table key is the
namespace/digest pair: the physical key is the byte concatenation
namespace ++ hash, and since every digest serializes to exactly 32 bytes
this concatenation is in bijection with the pair (see
concat_fixed_suffix_inj below). -/
structure RedbState where
  branches : List ((String × Digest) × BranchRec)
  leaves : List ((String × Digest) × LeafRec)
  compacts : List ((String × Digest) × CompactRec)
  roots : List (String × Digest)
deriving DecidableEq

/-- The empty redb database, as created by RedbStore::new + migrate. -/
def RedbState.empty : RedbState := ⟨[], [], [], []⟩

/-- The redb store handle: the shared database plus the mutable current
namespace (RedbStore::new starts at "default"). -/
structure RedbStore where
  db : RedbState
  ns : String
deriving DecidableEq

/-- Splitting a concatenation with a fixed-length suffix is unambiguous:
this is why keying the physical tables by namespace ++ hash (hash of fixed
32-byte width) is faithfully modelled by the pair (namespace, hash). -/
theorem concat_fixed_suffix_inj (n1 n2 s1 s2 : List Nat)
    (h1 : s1.length = 32) (h2 : s2.length = 32)
    (h : n1 ++ s1 = n2 ++ s2) : n1 = n2 ∧ s1 = s2 := by
  have hlen : n1.length = n2.length := by
    have := congrArg List.length h
    simp only [List.length_append, h1, h2] at this
    omega
  constructor
  · have := congrArg (fun l => List.take n1.length l) h
    simpa [List.take_left, hlen, List.take_left] using this
  · have := congrArg (fun l => List.drop n1.length l) h
    simpa [List.drop_left, hlen, List.drop_left] using this

/-- RedbStore::get_leaf: probe the leaves table under the current namespace
and rebuild the leaf from its record (Leaf::new(value, sum)). -/
def RedbStore.get_leaf (s : RedbStore) (key : Digest) : Option Leaf :=
  (assocFind s.db.leaves (s.ns, key)).map (fun r => ⟨r.value, r.sum⟩)

/-- RedbStore::get_compact_leaf: probe the compact-leaves table and rebuild
via the unsafe constructor, with the probed digest as the node's hash. -/
def RedbStore.get_compact_leaf (s : RedbStore) (key : Digest) :
    Option CompactLeaf :=
  (assocFind s.db.compacts (s.ns, key)).map
    (fun r => CompactLeaf.new_with_hash key ⟨r.value, r.sum⟩ r.key)

/-- The get_node closure inside RedbStore::get_branch: resolve a stored child
link by trying, in order, branch (via the captured recursive probe), leaf,
compact leaf, and finally falling back to entry 0 of the empty-subtree
table. -/
def redbResolveChild (s : RedbStore) (branchProbe : Digest → Option Branch)
    (h : Digest) : NodeM :=
  match branchProbe h with
  | some b => b.toNode
  | none =>
    match s.get_leaf h with
    | some l => l.toNode
    | none =>
      match s.get_compact_leaf h with
      | some c => c.toNode
      | none => emptyTreeNode 0

/-- RedbStore::get_branch: probe the branches table; on a hit, rebuild both
children with the get_node closure, then reassemble the branch with the
unsafe constructor using the probed digest and stored sum.  The recursion
over stored child links is bounded by explicit fuel (the Rust recursion
terminates because content-addressed links are acyclic). -/
def RedbStore.get_branch : Nat → RedbStore → Digest → Option Branch
  | 0, _, _ => none
  | fuel + 1, s, key =>
    match assocFind s.db.branches (s.ns, key) with
    | none => none
    | some rec0 =>
      some (Branch.new_with_hash
        (redbResolveChild s (RedbStore.get_branch fuel s) rec0.lh)
        (redbResolveChild s (RedbStore.get_branch fuel s) rec0.rh)
        key rec0.sum)

/-- TreeError variants relevant to the storage contract (TreeError in the
node-model crate); backend I/O failures are not modelled. -/
inductive TreeErr where
  | nodeNotFound
  | expectedBranch
deriving DecidableEq

/-- The get_node closure inside RedbStore::get_children: resolve the node at
(height, key) — empty-table hit first, then branch/leaf/compact probes, then
the empty node at the queried height. -/
def RedbStore.childAt (fuel : Nat) (s : RedbStore) (height : Nat)
    (key : Digest) : NodeM :=
  if key = emptyHash height then emptyTreeNode height
  else
    match RedbStore.get_branch fuel s key with
    | some b => b.toNode
    | none =>
      match s.get_leaf key with
      | some l => l.toNode
      | none =>
        match s.get_compact_leaf key with
        | some c => c.toNode
        | none => emptyTreeNode height

/-- RedbStore::get_children: resolve the node at (height, key) with the
get_node closure, report NodeNotFound when a non-empty key resolves to the
empty digest, require a branch, and resolve both children one level
deeper. -/
def RedbStore.get_children (fuel : Nat) (s : RedbStore) (height : Nat)
    (key : Digest) : Except TreeErr (NodeM × NodeM) :=
  let node := RedbStore.childAt fuel s height key
  if key ≠ emptyHash height ∧ nodeHash node = emptyHash height then
    .error .nodeNotFound
  else
    match node with
    | .branch l r _ _ =>
        .ok (RedbStore.childAt fuel s (height + 1) (nodeHash l),
          RedbStore.childAt fuel s (height + 1) (nodeHash r))
    | _ => .error .expectedBranch


/-- RedbStore::get_root_node: read the namespace's recorded root digest from
the roots table, then reconstruct it with get_branch. -/
def RedbStore.get_root_node (fuel : Nat) (s : RedbStore) : Option Branch :=
  (assocFind s.db.roots s.ns).bind (fun rh => RedbStore.get_branch fuel s rh)

/-- RedbStore::insert_leaf: upsert the leaf record keyed by its own digest
under the current namespace (redb table.insert replaces silently).  The only
Rust error path is a backend I/O failure, which is not modelled. -/
def RedbStore.insert_leaf (s : RedbStore) (l : Leaf) : RedbStore :=
  { s with db := { s.db with
      leaves := assocPut s.db.leaves (s.ns, l.hash) ⟨l.sum, l.value⟩ } }

/-- RedbStore::insert_branch: upsert the branch record (left digest, right
digest, sum) keyed by the branch's digest.  redb's table.insert replaces any
existing record and reports no conflict. -/
def RedbStore.insert_branch (s : RedbStore) (b : Branch) : RedbStore :=
  { s with db := { s.db with
      branches := assocPut s.db.branches (s.ns, b.hash)
        ⟨nodeHash b.left, nodeHash b.right, b.sum⟩ } }

/-- RedbStore::insert_compact_leaf: upsert the compact-leaf record (key, then
leaf record) keyed by the compact leaf's digest. -/
def RedbStore.insert_compact_leaf (s : RedbStore) (c : CompactLeaf) : RedbStore :=
  { s with db := { s.db with
      compacts := assocPut s.db.compacts (s.ns, c.hash)
        ⟨c.key, c.leaf.sum, c.leaf.value⟩ } }

/-- RedbStore::update_root: upsert the namespace's root digest in the roots
table. -/
def RedbStore.update_root (s : RedbStore) (b : Branch) : RedbStore :=
  { s with db := { s.db with roots := assocPut s.db.roots s.ns b.hash } }

/-- RedbStore::delete_branch: remove the branch record at the digest under
the current namespace (a no-op when absent). -/
def RedbStore.delete_branch (s : RedbStore) (key : Digest) : RedbStore :=
  { s with db := { s.db with branches := assocDel s.db.branches (s.ns, key) } }

/-- RedbStore::delete_leaf. -/
def RedbStore.delete_leaf (s : RedbStore) (key : Digest) : RedbStore :=
  { s with db := { s.db with leaves := assocDel s.db.leaves (s.ns, key) } }

/-- RedbStore::delete_compact_leaf. -/
def RedbStore.delete_compact_leaf (s : RedbStore) (key : Digest) : RedbStore :=
  { s with db := { s.db with compacts := assocDel s.db.compacts (s.ns, key) } }

/-- RedbStore::set_namespace: rebind the handle's current namespace. -/
def RedbStore.set_namespace (s : RedbStore) (n : String) : RedbStore :=
  { s with ns := n }

/-- A row of the single generalized mssmt_nodes table of the sqlite backend:
child digests (null for leaves and compact leaves), full key (null except
for compact leaves), value (null for branches), and sum.  NULL byte columns
read back as empty byte strings are modelled as none. -/
structure SqRow where
  lHash : Option Digest
  rHash : Option Digest
  key : Option (List Nat)
  value : Option (List Nat)
  sum : Nat
deriving DecidableEq

/-- The sqlite backend's tables: mssmt_nodes keyed by (hash_key, namespace)
and mssmt_roots keyed by namespace. -/
structure SqliteState where
  nodes : List ((Digest × String) × SqRow)
  roots : List (String × Digest)
deriving DecidableEq

/-- The empty sqlite database, as created by SqliteStore::new + migrate. -/
def SqliteState.empty : SqliteState := ⟨[], []⟩

/-- The sqlite store handle: the database plus the mutable current
namespace (SqliteStore::new starts at "default"). -/
structure SqliteStore where
  db : SqliteState
  ns : String
deriving DecidableEq

/-- SqliteStore::get_leaf: fetch the row at (key, namespace); it is a leaf
only when both child-hash columns are null. -/
def SqliteStore.get_leaf (s : SqliteStore) (key : Digest) : Option Leaf :=
  match assocFind s.db.nodes (key, s.ns) with
  | none => none
  | some r =>
    if r.lHash = none ∧ r.rHash = none then some ⟨r.value.getD [], r.sum⟩
    else none

/-- Modelled from the spec: Branch::empty_branch of the node model — the
canonical fully-empty branch (the root of the fully-empty tree, sum 0),
used by the sqlite backend as the substitute for a child whose row cannot
be reconstructed as a branch. -/
def Branch.empty_branch : Branch :=
  Branch.new (emptyNodeAt 255) (emptyNodeAt 255)

/-- SqliteStore::get_branch: fetch the row at (key, namespace); it is a
branch only when both child-hash columns parse as 32-byte digests, and each
child is reconstructed as a branch by recursion, substituting empty_branch
when the child row is absent or not a branch.  Fuel bounds the recursion
over stored links. -/
def SqliteStore.get_branch : Nat → SqliteStore → Digest → Option Branch
  | 0, _, _ => none
  | fuel + 1, s, key =>
    match assocFind s.db.nodes (key, s.ns) with
    | none => none
    | some r =>
      match r.lHash, r.rHash with
      | some lh, some rh =>
          some (Branch.new_with_hash
            (Branch.toNode ((SqliteStore.get_branch fuel s lh).getD Branch.empty_branch))
            (Branch.toNode ((SqliteStore.get_branch fuel s rh).getD Branch.empty_branch))
            key r.sum)
      | _, _ => none

/-- SqliteStore::get_root_node: join mssmt_roots with mssmt_nodes on the
root digest (the node row of the join is not namespace-filtered), then
reconstruct with get_branch (which is namespace-filtered). -/
def SqliteStore.get_root_node (fuel : Nat) (s : SqliteStore) : Option Branch :=
  (assocFind s.db.roots s.ns).bind (fun rh =>
    if s.db.nodes.any (fun e => decide (e.1.1 = rh)) then
      SqliteStore.get_branch fuel s rh
    else none)

/-- How the sqlite children query turns a fetched child row into a node:
leaf when both child hashes are null and key is null, compact leaf when
both child hashes are null and key is non-null, and a ComputedNode carrying
(digest, sum) otherwise. -/
def SqRow.toChildNode (h : Digest) (r : SqRow) : NodeM :=
  if r.lHash = none ∧ r.rHash = none then
    match r.key with
    | some k => .compact h (r.value.getD []) r.sum k
    | none => .leaf (r.value.getD []) r.sum
  else .computed h r.sum

/-- SqliteStore::get_children: one recursive-CTE round trip fetches the row
at (key, namespace) and its descendant rows; both children default to the
empty node one level deeper.  When the root row is absent the defaults are
returned; otherwise each fetched row whose digest equals the row's left
(resp. right) child link is converted with SqRow.toChildNode.  A row whose
digest matches both child links only ever assigns the left slot (the else
branch of the row loop), so equal children leave the right slot empty.
There is no error path: this accessor cannot fail. -/
def SqliteStore.get_children (s : SqliteStore) (height : Nat) (key : Digest) :
    NodeM × NodeM :=
  match assocFind s.db.nodes (key, s.ns) with
  | none => (emptyTreeNode (height + 1), emptyTreeNode (height + 1))
  | some root =>
    let lookupChild := fun (oh : Option Digest) =>
      oh.bind (fun h =>
        (assocFind s.db.nodes (h, s.ns)).map (fun r => SqRow.toChildNode h r))
    let left := (lookupChild root.lHash).getD (emptyTreeNode (height + 1))
    let right :=
      if root.rHash = root.lHash ∧ root.rHash ≠ none then
        emptyTreeNode (height + 1)
      else (lookupChild root.rHash).getD (emptyTreeNode (height + 1))
    (left, right)

/-- The conflict outcome of an INSERT OR FAIL hitting an existing primary
key; the Rust code surfaces it by panicking in .expect. -/
inductive SqlConflict where
  | conflict
deriving DecidableEq

/-- SqliteStore::insert_leaf: INSERT OR IGNORE keyed by (hash_key,
namespace) — a no-op when the row already exists. -/
def SqliteStore.insert_leaf (s : SqliteStore) (l : Leaf) : SqliteStore :=
  match assocFind s.db.nodes (l.hash, s.ns) with
  | some _ => s
  | none =>
    { s with db := { s.db with
        nodes := assocPut s.db.nodes (l.hash, s.ns)
          ⟨none, none, none, some l.value, l.sum⟩ } }

/-- SqliteStore::insert_branch: INSERT OR FAIL — a hard conflict when a row
with the same (hash_key, namespace) already exists, leaving the database
unchanged. -/
def SqliteStore.insert_branch (s : SqliteStore) (b : Branch) :
    Except SqlConflict SqliteStore :=
  match assocFind s.db.nodes (b.hash, s.ns) with
  | some _ => .error .conflict
  | none =>
    .ok { s with db := { s.db with
        nodes := assocPut s.db.nodes (b.hash, s.ns)
          ⟨some (nodeHash b.left), some (nodeHash b.right), none, none, b.sum⟩ } }

/-- SqliteStore::insert_compact_leaf: INSERT OR FAIL, like insert_branch. -/
def SqliteStore.insert_compact_leaf (s : SqliteStore) (c : CompactLeaf) :
    Except SqlConflict SqliteStore :=
  match assocFind s.db.nodes (c.hash, s.ns) with
  | some _ => .error .conflict
  | none =>
    .ok { s with db := { s.db with
        nodes := assocPut s.db.nodes (c.hash, s.ns)
          ⟨none, none, some c.key, some c.leaf.value, c.leaf.sum⟩ } }

/-- SqliteStore::update_root: silently skips an empty-tree root, otherwise
upserts the namespace's root digest (ON CONFLICT DO UPDATE). -/
def SqliteStore.update_root (s : SqliteStore) (b : Branch) : SqliteStore :=
  if b.hash = emptyHash 0 then s
  else { s with db := { s.db with roots := assocPut s.db.roots s.ns b.hash } }

/-- SqliteStore::delete_branch: DELETE by (hash_key, namespace); the three
delete operations share one statement over the generalized node table. -/
def SqliteStore.delete_branch (s : SqliteStore) (key : Digest) : SqliteStore :=
  { s with db := { s.db with nodes := assocDel s.db.nodes (key, s.ns) } }

/-- SqliteStore::delete_leaf. -/
def SqliteStore.delete_leaf (s : SqliteStore) (key : Digest) : SqliteStore :=
  { s with db := { s.db with nodes := assocDel s.db.nodes (key, s.ns) } }

/-- SqliteStore::delete_compact_leaf. -/
def SqliteStore.delete_compact_leaf (s : SqliteStore) (key : Digest) : SqliteStore :=
  { s with db := { s.db with nodes := assocDel s.db.nodes (key, s.ns) } }

/-- SqliteStore::set_namespace. -/
def SqliteStore.set_namespace (s : SqliteStore) (n : String) : SqliteStore :=
  { s with ns := n }

/-- One mutating call of the storage capability contract (the namespace is
the handle's, not a parameter). -/
inductive TreeOp where
  | insLeaf (l : Leaf)
  | insBranch (b : Branch)
  | insCompact (c : CompactLeaf)
  | delLeaf (h : Digest)
  | delBranch (h : Digest)
  | delCompact (h : Digest)
  | updRoot (b : Branch)
deriving DecidableEq

/-- Apply one mutating contract call to a redb handle. -/
def RedbStore.applyOp (s : RedbStore) : TreeOp → RedbStore
  | .insLeaf l => s.insert_leaf l
  | .insBranch b => s.insert_branch b
  | .insCompact c => s.insert_compact_leaf c
  | .delLeaf h => s.delete_leaf h
  | .delBranch h => s.delete_branch h
  | .delCompact h => s.delete_compact_leaf h
  | .updRoot b => s.update_root b

/-- Apply one mutating contract call to a sqlite handle; a failed INSERT OR
FAIL leaves the database unchanged. -/
def SqliteStore.applyOp (s : SqliteStore) : TreeOp → SqliteStore
  | .insLeaf l => s.insert_leaf l
  | .insBranch b => (s.insert_branch b).toOption.getD s
  | .insCompact c => (s.insert_compact_leaf c).toOption.getD s
  | .delLeaf h => s.delete_leaf h
  | .delBranch h => s.delete_branch h
  | .delCompact h => s.delete_compact_leaf h
  | .updRoot b => s.update_root b

/-- Big-endian base-256 byte encoding of a natural in k bytes
(u64::to_be_bytes for k = 8, truncating to the low k bytes). -/
def beBytes : Nat → Nat → List Nat
  | 0, _ => []
  | k + 1, n => beBytes k (n / 256) ++ [n % 256]

/-- Big-endian byte decoding (u64::from_be_bytes). -/
def beVal (l : List Nat) : Nat :=
  l.foldl (fun acc b => acc * 256 + b) 0

theorem beBytes_length (k n : Nat) : (beBytes k n).length = k := by
  induction k generalizing n with
  | zero => rfl
  | succ k ih => simp [beBytes, ih]

theorem beVal_foldl (l : List Nat) (a : Nat) :
    l.foldl (fun acc b => acc * 256 + b) a =
      a * 256 ^ l.length + beVal l := by
  induction l generalizing a with
  | nil => simp [beVal]
  | cons b t ih =>
      simp only [List.foldl_cons, beVal, List.length_cons]
      rw [ih (a * 256 + b), ih (0 * 256 + b)]
      ring

theorem beVal_beBytes (k n : Nat) : beVal (beBytes k n) = n % 256 ^ k := by
  induction k generalizing n with
  | zero => simp [beBytes, beVal, Nat.mod_one]
  | succ k ih =>
      simp only [beBytes, beVal, List.foldl_append, List.foldl_cons,
        List.foldl_nil]
      rw [beVal_foldl]
      have hmod : n % 256 ^ (k + 1) = n % 256 + 256 * (n / 256 % 256 ^ k) := by
        rw [pow_succ']
        exact Nat.mod_mul
      rw [beBytes_length, ih (n / 256), hmod]
      ring

/-- RedbStore::serialize_branch at the byte level: left digest bytes (32),
right digest bytes (32), sum as 8 big-endian bytes.  The two digests are
abstracted as their 32-byte representations. -/
def serialize_branch (lh rh : List Nat) (sum : Nat) : List Nat :=
  lh ++ rh ++ beBytes 8 sum

/-- RedbStore::deserialize_branch: bytes 0..32, 32..64, and 64..72. -/
def deserialize_branch (data : List Nat) : List Nat × List Nat × Nat :=
  (data.take 32, (data.drop 32).take 32, beVal ((data.drop 64).take 8))

/-- RedbStore::serialize_leaf: sum as 8 big-endian bytes, then the value. -/
def serialize_leaf (sum : Nat) (value : List Nat) : List Nat :=
  beBytes 8 sum ++ value

/-- RedbStore::deserialize_leaf: bytes 0..8 decode the sum, the rest is the
value. -/
def deserialize_leaf (data : List Nat) : Nat × List Nat :=
  (beVal (data.take 8), data.drop 8)

/-- RedbStore::serialize_compact_leaf: 32-byte key, then the leaf record. -/
def serialize_compact_leaf (key : List Nat) (sum : Nat) (value : List Nat) :
    List Nat :=
  key ++ serialize_leaf sum value

/-- RedbStore::deserialize_compact_leaf: bytes 0..32, 32..40, and 40.. . -/
def deserialize_compact_leaf (data : List Nat) : List Nat × Nat × List Nat :=
  (data.take 32, beVal ((data.drop 32).take 8), data.drop 40)

/-- The mint's inner configuration snapshot (Config in mint/config.rs), with
the concrete keyset map and mint-info types held abstract. -/
structure Config (MintInfo Keysets : Type) where
  keysets : Keysets
  mint_info : MintInfo
  quote_ttl : Nat × Nat
deriving DecidableEq

/-- The hot-swappable configuration holder (SwappableConfig).  The ArcSwap
cell is modelled by explicit state passing: load reads the current snapshot
and each setter builds and publishes a full new snapshot. -/
def SwappableConfig (MintInfo Keysets : Type) := Config MintInfo Keysets

/-- SwappableConfig::load. -/
def SwappableConfig.load {MI K : Type} (c : SwappableConfig MI K) : Config MI K := c

/-- SwappableConfig::set_quote_ttl: new snapshot cloning mint_info and
keysets from the current one. -/
def SwappableConfig.set_quote_ttl {MI K : Type} (c : SwappableConfig MI K)
    (quote_ttl : Nat × Nat) : SwappableConfig MI K :=
  { mint_info := (SwappableConfig.load c).mint_info
    quote_ttl := quote_ttl
    keysets := (SwappableConfig.load c).keysets }

/-- SwappableConfig::set_mint_info: new snapshot cloning quote_ttl and
keysets. -/
def SwappableConfig.set_mint_info {MI K : Type} (c : SwappableConfig MI K)
    (mint_info : MI) : SwappableConfig MI K :=
  { mint_info := mint_info
    quote_ttl := (SwappableConfig.load c).quote_ttl
    keysets := (SwappableConfig.load c).keysets }

/-- SwappableConfig::set_keysets: new snapshot cloning mint_info and
quote_ttl. -/
def SwappableConfig.set_keysets {MI K : Type} (c : SwappableConfig MI K)
    (keysets : K) : SwappableConfig MI K :=
  { mint_info := (SwappableConfig.load c).mint_info
    quote_ttl := (SwappableConfig.load c).quote_ttl
    keysets := keysets }

/-- An ArcTreeStore handle is an Arc pointer to a mutex-guarded backend; the
pointer is modelled as an address into an explicit heap of wrapped stores
(instantiated at the redb backend, one NamespaceableTreeStore impl of this
repository).  Clone on the wrapper clones the Arc, i.e. copies the
address. -/
def ArcTreeStore : Type := Nat

/-- The heap of wrapped backend instances addressed by Arc pointers. -/
def TreeHeap : Type := Nat → RedbStore

/-- Clone for ArcTreeStore (derived Clone on the Arc): the same address. -/
def ArcTreeStore.clone (a : ArcTreeStore) : ArcTreeStore := a

/-- ArcTreeStore::set_namespace: lock the shared cell and rebind the wrapped
store's namespace in place. -/
def ArcTreeStore.set_namespace (heap : TreeHeap) (a : ArcTreeStore)
    (n : String) : TreeHeap :=
  Function.update heap a ((heap a).set_namespace n)

/-- ArcTreeStore::get_leaf: lock and delegate. -/
def ArcTreeStore.get_leaf (heap : TreeHeap) (a : ArcTreeStore) (key : Digest) :
    Option Leaf :=
  (heap a).get_leaf key

/-- ArcTreeStore::get_root_node: lock and delegate. -/
def ArcTreeStore.get_root_node (fuel : Nat) (heap : TreeHeap) (a : ArcTreeStore) :
    Option Branch :=
  RedbStore.get_root_node fuel (heap a)

/-- ArcTreeStore::get_children: lock and delegate. -/
def ArcTreeStore.get_children (fuel : Nat) (heap : TreeHeap) (a : ArcTreeStore)
    (height : Nat) (key : Digest) : Except TreeErr (NodeM × NodeM) :=
  RedbStore.get_children fuel (heap a) height key

/-- ArcTreeStore::insert_leaf: lock and delegate, mutating the shared cell. -/
def ArcTreeStore.insert_leaf (heap : TreeHeap) (a : ArcTreeStore) (l : Leaf) :
    TreeHeap :=
  Function.update heap a ((heap a).insert_leaf l)

/-- ArcTreeStore::insert_branch. -/
def ArcTreeStore.insert_branch (heap : TreeHeap) (a : ArcTreeStore) (b : Branch) :
    TreeHeap :=
  Function.update heap a ((heap a).insert_branch b)

/-- ArcTreeStore::delete_leaf. -/
def ArcTreeStore.delete_leaf (heap : TreeHeap) (a : ArcTreeStore) (h : Digest) :
    TreeHeap :=
  Function.update heap a ((heap a).delete_leaf h)

/-- ArcTreeStore::update_root. -/
def ArcTreeStore.update_root (heap : TreeHeap) (a : ArcTreeStore) (b : Branch) :
    TreeHeap :=
  Function.update heap a ((heap a).update_root b)

theorem beVal_beBytes_of_lt (s : Nat) (h : s < 2 ^ 64) :
    beVal (beBytes 8 s) = s := by
  rw [beVal_beBytes]
  exact Nat.mod_eq_of_lt (by norm_num at h ⊢; omega)

theorem take_len_append {α : Type} (l1 l2 : List α) (n : Nat)
    (h : l1.length = n) : (l1 ++ l2).take n = l1 := by
  subst h
  exact List.take_left l1 l2

theorem take_all_len {α : Type} (l : List α) (n : Nat)
    (h : l.length = n) : l.take n = l := by
  subst h
  simp

theorem drop_len_append {α : Type} (l1 l2 : List α) (n : Nat)
    (h : l1.length = n) : (l1 ++ l2).drop n = l2 := by
  subst h
  exact List.drop_left l1 l2

/-- C9: each SwappableConfig setter publishes a full new snapshot that
changes only its own field: set_quote_ttl fixes quote_ttl and preserves
mint_info and keysets from the previous snapshot, set_mint_info fixes
mint_info and preserves quote_ttl and keysets, and set_keysets fixes
keysets and preserves quote_ttl and mint_info — for every prior
configuration and argument. -/
theorem claim_C9_config_setters_change_only_their_field
    {MI K : Type} (c : SwappableConfig MI K) (t : Nat × Nat) (mi : MI) (ks : K) :
    ((c.set_quote_ttl t).load.quote_ttl = t
      ∧ (c.set_quote_ttl t).load.mint_info = c.load.mint_info
      ∧ (c.set_quote_ttl t).load.keysets = c.load.keysets)
    ∧ ((c.set_mint_info mi).load.mint_info = mi
      ∧ (c.set_mint_info mi).load.quote_ttl = c.load.quote_ttl
      ∧ (c.set_mint_info mi).load.keysets = c.load.keysets)
    ∧ ((c.set_keysets ks).load.keysets = ks
      ∧ (c.set_keysets ks).load.quote_ttl = c.load.quote_ttl
      ∧ (c.set_keysets ks).load.mint_info = c.load.mint_info) :=
  ⟨⟨rfl, rfl, rfl⟩, ⟨rfl, rfl, rfl⟩, ⟨rfl, rfl, rfl⟩⟩

/-- C8: the key-value backend's serializers and deserializers are mutually
inverse: deserializing a serialized branch record (32-byte left hash,
32-byte right hash, 8-byte big-endian sum) recovers the child hashes and
sum, deserializing a serialized leaf record (8-byte big-endian sum, then
value) recovers sum and value, and deserializing a serialized compact-leaf
record (32-byte key, then the leaf record) recovers key, sum, and value. -/
theorem claim_C8_serializers_roundtrip (lh rh key v : List Nat) (s : Nat)
    (hl : lh.length = 32) (hr : rh.length = 32) (hk : key.length = 32)
    (hs : s < 2 ^ 64) :
    deserialize_branch (serialize_branch lh rh s) = (lh, rh, s)
    ∧ deserialize_leaf (serialize_leaf s v) = (s, v)
    ∧ deserialize_compact_leaf (serialize_compact_leaf key s v) = (key, s, v) := by
  refine ⟨?_, ?_, ?_⟩
  · unfold deserialize_branch serialize_branch
    have h1 : (lh ++ (rh ++ beBytes 8 s)).take 32 = lh :=
      take_len_append _ _ _ hl
    have h2 : (lh ++ (rh ++ beBytes 8 s)).drop 32 = rh ++ beBytes 8 s :=
      drop_len_append _ _ _ hl
    have h3 : ((lh ++ (rh ++ beBytes 8 s)).drop 64) = beBytes 8 s := by
      have : (64 : Nat) = 32 + 32 := by norm_num
      rw [this, ← List.drop_drop, h2, drop_len_append _ _ _ hr]
    simp only [List.append_assoc, h1, h2, h3]
    rw [take_len_append rh (beBytes 8 s) 32 hr,
      take_all_len (beBytes 8 s) 8 (beBytes_length 8 s),
      beVal_beBytes_of_lt s hs]
  · unfold deserialize_leaf serialize_leaf
    rw [take_len_append _ _ _ (beBytes_length 8 s),
      drop_len_append _ _ _ (beBytes_length 8 s), beVal_beBytes_of_lt s hs]
  · unfold deserialize_compact_leaf serialize_compact_leaf serialize_leaf
    have h1 : (key ++ (beBytes 8 s ++ v)).take 32 = key :=
      take_len_append _ _ _ hk
    have h2 : (key ++ (beBytes 8 s ++ v)).drop 32 = beBytes 8 s ++ v :=
      drop_len_append _ _ _ hk
    have h3 : (key ++ (beBytes 8 s ++ v)).drop 40 = v := by
      have : (40 : Nat) = 32 + 8 := by norm_num
      rw [this, ← List.drop_drop, h2, drop_len_append _ _ _ (beBytes_length 8 s)]
    simp only [h1, h2, h3]
    rw [take_len_append _ _ _ (beBytes_length 8 s), beVal_beBytes_of_lt s hs]

/-- Witness for C8 at concrete inputs: 32-byte hash and key lists and a
concrete sum below 2^64. -/
theorem claim_C8_serializers_roundtrip_witness :
    deserialize_branch
        (serialize_branch (List.replicate 32 1) (List.replicate 32 2) 5)
      = (List.replicate 32 1, List.replicate 32 2, 5)
    ∧ deserialize_leaf (serialize_leaf 5 [7, 7]) = (5, [7, 7])
    ∧ deserialize_compact_leaf
        (serialize_compact_leaf (List.replicate 32 3) 5 [7, 7])
      = (List.replicate 32 3, 5, [7, 7]) :=
  claim_C8_serializers_roundtrip (List.replicate 32 1) (List.replicate 32 2)
    (List.replicate 32 3) [7, 7] 5 (by decide) (by decide) (by decide)
    (by norm_num)

/-- C10: cloning an ArcTreeStore yields a handle over the same underlying
backend state including its current namespace binding: after
set_namespace(n) through one clone, the cell seen through any other clone
holds the same store rebound to n, and get_leaf, get_root_node,
get_children, insert_leaf, insert_branch, delete_leaf and update_root
issued through the other clone all resolve against that shared store under
namespace n — the namespace is shared per wrapped store, not private to
each handle. -/
theorem claim_C10_clone_shares_namespace (heap : TreeHeap) (a : ArcTreeStore)
    (n : String) (k hD : Digest) (l : Leaf) (b : Branch) (fuel height : Nat) :
    ArcTreeStore.set_namespace heap a n (ArcTreeStore.clone a)
        = { heap a with ns := n }
    ∧ ArcTreeStore.get_leaf (ArcTreeStore.set_namespace heap a n)
        (ArcTreeStore.clone a) k
      = RedbStore.get_leaf { heap a with ns := n } k
    ∧ ArcTreeStore.get_root_node fuel (ArcTreeStore.set_namespace heap a n)
        (ArcTreeStore.clone a)
      = RedbStore.get_root_node fuel { heap a with ns := n }
    ∧ ArcTreeStore.get_children fuel (ArcTreeStore.set_namespace heap a n)
        (ArcTreeStore.clone a) height k
      = RedbStore.get_children fuel { heap a with ns := n } height k
    ∧ ArcTreeStore.insert_leaf (ArcTreeStore.set_namespace heap a n)
        (ArcTreeStore.clone a) l (ArcTreeStore.clone a)
      = RedbStore.insert_leaf { heap a with ns := n } l
    ∧ ArcTreeStore.insert_branch (ArcTreeStore.set_namespace heap a n)
        (ArcTreeStore.clone a) b (ArcTreeStore.clone a)
      = RedbStore.insert_branch { heap a with ns := n } b
    ∧ ArcTreeStore.delete_leaf (ArcTreeStore.set_namespace heap a n)
        (ArcTreeStore.clone a) hD (ArcTreeStore.clone a)
      = RedbStore.delete_leaf { heap a with ns := n } hD
    ∧ ArcTreeStore.update_root (ArcTreeStore.set_namespace heap a n)
        (ArcTreeStore.clone a) b (ArcTreeStore.clone a)
      = RedbStore.update_root { heap a with ns := n } b := by
  have hcell : ArcTreeStore.set_namespace heap a n (ArcTreeStore.clone a)
      = { heap a with ns := n } := by
    simp [ArcTreeStore.set_namespace, ArcTreeStore.clone, Function.update_same,
      RedbStore.set_namespace]
  refine ⟨hcell, ?_, ?_, ?_, ?_, ?_, ?_, ?_⟩
  · simp [ArcTreeStore.get_leaf, hcell]
  · simp [ArcTreeStore.get_root_node, hcell]
  · simp [ArcTreeStore.get_children, hcell]
  · simp only [ArcTreeStore.insert_leaf, ArcTreeStore.clone, Function.update_same]
    exact congrArg (fun s => RedbStore.insert_leaf s l) hcell
  · simp only [ArcTreeStore.insert_branch, ArcTreeStore.clone, Function.update_same]
    exact congrArg (fun s => RedbStore.insert_branch s b) hcell
  · simp only [ArcTreeStore.delete_leaf, ArcTreeStore.clone, Function.update_same]
    exact congrArg (fun s => RedbStore.delete_leaf s hD) hcell
  · simp only [ArcTreeStore.update_root, ArcTreeStore.clone, Function.update_same]
    exact congrArg (fun s => RedbStore.update_root s b) hcell

/-- C4 (amended): inserting the same leaf (identical hash and content) twice
leaves the stored state unchanged on both backends, and a second
insert_branch for an already-occupied hash fails with a conflict error on
the relational backend; the key-value backend's insert_branch instead
upserts silently (see the counterexample). -/
theorem claim_C4_leaf_idempotent_branch_conflict
    (sR : RedbStore) (sQ : SqliteStore) (l lq : Leaf) (b : Branch) (r : SqRow)
    (hb : assocFind sQ.db.nodes (b.hash, sQ.ns) = some r) :
    RedbStore.insert_leaf (RedbStore.insert_leaf sR l) l
        = RedbStore.insert_leaf sR l
    ∧ SqliteStore.insert_leaf (SqliteStore.insert_leaf sQ lq) lq
        = SqliteStore.insert_leaf sQ lq
    ∧ SqliteStore.insert_branch sQ b = Except.error SqlConflict.conflict := by
  refine ⟨?_, ?_, ?_⟩
  · simp [RedbStore.insert_leaf, assocPut_put_self]
  · cases h : assocFind sQ.db.nodes (lq.hash, sQ.ns) with
    | some r0 => simp [SqliteStore.insert_leaf, h]
    | none =>
        simp only [SqliteStore.insert_leaf, h]
        rw [assocFind_put_self]
  · simp [SqliteStore.insert_branch, hb]

/-- Witness for C4's theorem: concrete stores, a concrete leaf inserted
twice on each backend, and a concrete occupied hash for the relational
conflict. -/
theorem claim_C4_leaf_idempotent_branch_conflict_witness :
    RedbStore.insert_leaf
        (RedbStore.insert_leaf ⟨RedbState.empty, "default"⟩ ⟨[1], 2⟩) ⟨[1], 2⟩
      = RedbStore.insert_leaf ⟨RedbState.empty, "default"⟩ ⟨[1], 2⟩
    ∧ SqliteStore.insert_leaf
        (SqliteStore.insert_leaf
          ⟨⟨[((Digest.branchD (Digest.leafD [] 1) (Digest.leafD [] 2) 3, "default"),
              ⟨some (Digest.leafD [] 1), some (Digest.leafD [] 2), none, none, 3⟩)],
            []⟩, "default"⟩ ⟨[1], 2⟩) ⟨[1], 2⟩
      = SqliteStore.insert_leaf
          ⟨⟨[((Digest.branchD (Digest.leafD [] 1) (Digest.leafD [] 2) 3, "default"),
              ⟨some (Digest.leafD [] 1), some (Digest.leafD [] 2), none, none, 3⟩)],
            []⟩, "default"⟩ ⟨[1], 2⟩
    ∧ SqliteStore.insert_branch
        ⟨⟨[((Digest.branchD (Digest.leafD [] 1) (Digest.leafD [] 2) 3, "default"),
            ⟨some (Digest.leafD [] 1), some (Digest.leafD [] 2), none, none, 3⟩)],
          []⟩, "default"⟩
        (Branch.new (NodeM.leaf [] 1) (NodeM.leaf [] 2))
      = Except.error SqlConflict.conflict :=
  claim_C4_leaf_idempotent_branch_conflict ⟨RedbState.empty, "default"⟩
    ⟨⟨[((Digest.branchD (Digest.leafD [] 1) (Digest.leafD [] 2) 3, "default"),
        ⟨some (Digest.leafD [] 1), some (Digest.leafD [] 2), none, none, 3⟩)],
      []⟩, "default"⟩
    ⟨[1], 2⟩ ⟨[1], 2⟩ (Branch.new (NodeM.leaf [] 1) (NodeM.leaf [] 2))
    ⟨some (Digest.leafD [] 1), some (Digest.leafD [] 2), none, none, 3⟩ (by rfl)

/-- Counterexample for C4 as stated: on the key-value backend a second
insert_branch for a hash already used by a distinct branch record does not
fail — it silently replaces the stored record (redb table.insert upserts;
its only error path is a backend I/O failure).  After inserting a branch
record (leafD [] 1, leafD [] 2, sum 1) at a hash and then a distinct branch
with the same hash, the stored record is the second one. -/
theorem claim_C4_counterexample :
    assocFind
        (RedbStore.insert_branch ⟨RedbState.empty, "default"⟩
          (Branch.new_with_hash (.leaf [] 1) (.leaf [] 2) (.leafD [9] 9) 1)).db.branches
        ("default", Digest.leafD [9] 9)
      = some ⟨Digest.leafD [] 1, Digest.leafD [] 2, 1⟩
    ∧ assocFind
        (RedbStore.insert_branch
          (RedbStore.insert_branch ⟨RedbState.empty, "default"⟩
            (Branch.new_with_hash (.leaf [] 1) (.leaf [] 2) (.leafD [9] 9) 1))
          (Branch.new_with_hash (.leaf [] 3) (.leaf [] 4) (.leafD [9] 9) 2)).db.branches
        ("default", Digest.leafD [9] 9)
      = some ⟨Digest.leafD [] 3, Digest.leafD [] 4, 2⟩ := by
  refine ⟨?_, ?_⟩ <;> rfl

theorem redb_get_branch_none (s : RedbStore) (key : Digest)
    (h : assocFind s.db.branches (s.ns, key) = none) :
    ∀ fuel, RedbStore.get_branch fuel s key = none
  | 0 => rfl
  | fuel + 1 => by simp [RedbStore.get_branch, h]

theorem emptyHash_eq_branchD (i : Nat) (h : i ≤ 255) :
    emptyHash i = Digest.branchD (nodeHash (emptyNodeAt (255 - i)))
      (nodeHash (emptyNodeAt (255 - i)))
      (nodeSum (emptyNodeAt (255 - i)) + nodeSum (emptyNodeAt (255 - i))) := by
  unfold emptyHash emptyTreeNode
  have h2 : 256 - i = (255 - i) + 1 := by omega
  rw [h2, emptyNodeAt_succ]
  rfl

theorem leafD_ne_emptyHash (v : List Nat) (sm : Nat) (i : Nat) (h : i ≤ 255) :
    Digest.leafD v sm ≠ emptyHash i := by
  rw [emptyHash_eq_branchD i h]
  exact fun hh => Digest.noConfusion hh

/-- C3 (amended): on the key-value backend, for every height at most 255 and
every key, get_children fails with NodeNotFound when the key is neither the
depth's empty-subtree hash nor present in any of the three tables, and
fails with ExpectedBranch when the record stored at the key is a leaf or a
compact leaf rather than a branch; these failures are returned to the
caller.  The relational backend's get_children is infallible and
substitutes empty-subtree nodes instead (see the counterexample). -/
theorem claim_C3_structural_errors
    (s : RedbStore) (height : Nat) (key : Digest) (fuel : Nat)
    (hh : height ≤ 255) (hkey : key ≠ emptyHash height)
    (hbr : assocFind s.db.branches (s.ns, key) = none) :
    (assocFind s.db.leaves (s.ns, key) = none →
      assocFind s.db.compacts (s.ns, key) = none →
      RedbStore.get_children fuel s height key = .error .nodeNotFound)
    ∧ (∀ lr, assocFind s.db.leaves (s.ns, key) = some lr →
      RedbStore.get_children fuel s height key = .error .expectedBranch)
    ∧ (∀ cr, assocFind s.db.leaves (s.ns, key) = none →
      assocFind s.db.compacts (s.ns, key) = some cr →
      RedbStore.get_children fuel s height key = .error .expectedBranch) := by
  refine ⟨?_, ?_, ?_⟩
  · intro hlv hcp
    have hnode : RedbStore.childAt fuel s height key = emptyTreeNode height := by
      unfold RedbStore.childAt
      rw [if_neg hkey, redb_get_branch_none s key hbr fuel]
      simp [RedbStore.get_leaf, RedbStore.get_compact_leaf, hlv, hcp]
    simp only [RedbStore.get_children, hnode]
    rw [if_pos ⟨hkey, rfl⟩]
  · intro lr hlv
    have hnode : RedbStore.childAt fuel s height key
        = NodeM.leaf lr.value lr.sum := by
      unfold RedbStore.childAt
      rw [if_neg hkey, redb_get_branch_none s key hbr fuel]
      simp [RedbStore.get_leaf, hlv, Leaf.toNode]
    simp only [RedbStore.get_children, hnode]
    rw [if_neg (fun hc => leafD_ne_emptyHash lr.value lr.sum height hh hc.2)]
  · intro cr hlv hcp
    have hnode : RedbStore.childAt fuel s height key
        = NodeM.compact key cr.value cr.sum cr.key := by
      unfold RedbStore.childAt
      rw [if_neg hkey, redb_get_branch_none s key hbr fuel]
      simp [RedbStore.get_leaf, RedbStore.get_compact_leaf, hlv, hcp,
        CompactLeaf.toNode, CompactLeaf.new_with_hash]
    simp only [RedbStore.get_children, hnode]
    rw [if_neg (fun hc => hc.1 hc.2)]

/-- Witness for C3's theorem at height 255: a missing key on an empty store
yields NodeNotFound, and a key stored as a leaf yields ExpectedBranch. -/
theorem claim_C3_structural_errors_witness :
    RedbStore.get_children 1 ⟨RedbState.empty, "default"⟩ 255 (Digest.leafD [1] 5)
      = .error .nodeNotFound
    ∧ RedbStore.get_children 1
        ⟨⟨[], [(("default", Digest.leafD [1] 5), ⟨5, [1]⟩)], [], []⟩, "default"⟩
        255 (Digest.leafD [1] 5)
      = .error .expectedBranch :=
  ⟨(claim_C3_structural_errors ⟨RedbState.empty, "default"⟩ 255
      (Digest.leafD [1] 5) 1 (by decide) (by decide) rfl).1 rfl rfl,
    (claim_C3_structural_errors
      ⟨⟨[], [(("default", Digest.leafD [1] 5), ⟨5, [1]⟩)], [], []⟩, "default"⟩
      255 (Digest.leafD [1] 5) 1 (by decide) (by decide) rfl).2.1 ⟨5, [1]⟩ rfl⟩

/-- Counterexample for C3 as stated: the relational backend's get_children
has no error channel at all — at a key that is neither the depth's
empty-subtree hash nor present in storage it returns the two empty-subtree
children instead of surfacing a NodeNotFound failure. -/
theorem claim_C3_counterexample :
    Digest.leafD [1] 5 ≠ emptyHash 0
    ∧ SqliteStore.get_children ⟨SqliteState.empty, "default"⟩ 0 (Digest.leafD [1] 5)
      = (emptyTreeNode 1, emptyTreeNode 1) := by
  refine ⟨leafD_ne_emptyHash [1] 5 0 (by omega), rfl⟩

theorem emptyTreeNode_eq_branch (i : Nat) (h : i ≤ 255) :
    emptyTreeNode i = NodeM.branch (emptyTreeNode (i + 1)) (emptyTreeNode (i + 1))
      (Digest.branchD (emptyHash (i + 1)) (emptyHash (i + 1))
        (nodeSum (emptyTreeNode (i + 1)) + nodeSum (emptyTreeNode (i + 1))))
      (nodeSum (emptyTreeNode (i + 1)) + nodeSum (emptyTreeNode (i + 1))) := by
  unfold emptyTreeNode emptyHash
  have h2 : 256 - i = (256 - (i + 1)) + 1 := by omega
  rw [h2, emptyNodeAt_succ]
  rfl

/-- C6 (amended): in get_children the not-found fallback is the empty node
at the depth passed by the caller, and in particular, for every height at
most 255, get_children applied to the empty-subtree hash of that depth
returns two children each equal to the empty-subtree node of the next
deeper depth — on both backends (for the relational backend provided no row
is stored under the empty hash).  In RedbStore::get_branch, however, the
recursive child reconstruction falls back to entry 0 of the empty-subtree
table regardless of the child's depth (see the counterexample). -/
theorem claim_C6_empty_subtree_default
    (sR : RedbStore) (sQ : SqliteStore) (height : Nat) (fuel : Nat)
    (hh : height ≤ 255)
    (hq : assocFind sQ.db.nodes (emptyHash height, sQ.ns) = none) :
    RedbStore.get_children fuel sR height (emptyHash height)
      = .ok (emptyTreeNode (height + 1), emptyTreeNode (height + 1))
    ∧ SqliteStore.get_children sQ height (emptyHash height)
      = (emptyTreeNode (height + 1), emptyTreeNode (height + 1)) := by
  constructor
  · have hchild : RedbStore.childAt fuel sR (height + 1)
        (nodeHash (emptyTreeNode (height + 1))) = emptyTreeNode (height + 1) := by
      unfold RedbStore.childAt
      rw [if_pos (show nodeHash (emptyTreeNode (height + 1))
        = emptyHash (height + 1) from rfl)]
    have hnode : RedbStore.childAt fuel sR height (emptyHash height)
        = emptyTreeNode height := by
      unfold RedbStore.childAt
      rw [if_pos rfl]
    simp only [RedbStore.get_children, hnode]
    rw [if_neg (fun hc => hc.1 rfl)]
    rw [emptyTreeNode_eq_branch height hh]
    show Except.ok (RedbStore.childAt fuel sR (height + 1) (nodeHash (emptyTreeNode (height + 1))),
        RedbStore.childAt fuel sR (height + 1) (nodeHash (emptyTreeNode (height + 1))))
      = Except.ok (emptyTreeNode (height + 1), emptyTreeNode (height + 1))
    rw [hchild]
  · simp [SqliteStore.get_children, hq]

/-- Witness for C6's theorem at height 255 on fresh stores. -/
theorem claim_C6_empty_subtree_default_witness :
    RedbStore.get_children 1 ⟨RedbState.empty, "default"⟩ 255 (emptyHash 255)
      = .ok (emptyTreeNode 256, emptyTreeNode 256)
    ∧ SqliteStore.get_children ⟨SqliteState.empty, "default"⟩ 255 (emptyHash 255)
      = (emptyTreeNode 256, emptyTreeNode 256) :=
  claim_C6_empty_subtree_default ⟨RedbState.empty, "default"⟩
    ⟨SqliteState.empty, "default"⟩ 255 1 (by decide) rfl

/-- Counterexample for C6 as stated: RedbStore::get_branch reconstructs an
absent child as entry 0 of the empty-subtree table no matter the position's
depth.  For a stored root branch whose children are absent from all three
tables, both reconstructed children are the depth-0 empty node, which is
not the empty-subtree node of the children's depth 1. -/
theorem claim_C6_counterexample :
    RedbStore.get_branch 2
        ⟨⟨[(("default",
            Digest.branchD (Digest.leafD [1] 5) (Digest.leafD [2] 3) 8),
            ⟨Digest.leafD [1] 5, Digest.leafD [2] 3, 8⟩)], [], [], []⟩, "default"⟩
        (Digest.branchD (Digest.leafD [1] 5) (Digest.leafD [2] 3) 8)
      = some (Branch.new_with_hash (emptyTreeNode 0) (emptyTreeNode 0)
          (Digest.branchD (Digest.leafD [1] 5) (Digest.leafD [2] 3) 8) 8)
    ∧ emptyTreeNode 0 ≠ emptyTreeNode 1 := by
  refine ⟨rfl, ?_⟩
  show emptyNodeAt 256 ≠ emptyNodeAt 255
  exact emptyNodeAt_succ_ne 255

theorem redb_get_branch_found (s : RedbStore) (key : Digest) (r : BranchRec)
    (h : assocFind s.db.branches (s.ns, key) = some r) (fuel : Nat) :
    RedbStore.get_branch (fuel + 1) s key
      = some (Branch.new_with_hash
          (redbResolveChild s (RedbStore.get_branch fuel s) r.lh)
          (redbResolveChild s (RedbStore.get_branch fuel s) r.rh) key r.sum) := by
  simp [RedbStore.get_branch, h]

theorem sqlite_get_branch_found (s : SqliteStore) (key : Digest) (r : SqRow)
    (lh rh : Digest) (h : assocFind s.db.nodes (key, s.ns) = some r)
    (hl : r.lHash = some lh) (hr : r.rHash = some rh) (fuel : Nat) :
    SqliteStore.get_branch (fuel + 1) s key
      = some (Branch.new_with_hash
          (Branch.toNode ((SqliteStore.get_branch fuel s lh).getD Branch.empty_branch))
          (Branch.toNode ((SqliteStore.get_branch fuel s rh).getD Branch.empty_branch))
          key r.sum) := by
  simp [SqliteStore.get_branch, h, hl, hr]

theorem sqlite_nodes_any_of_find (nodes : List ((Digest × String) × SqRow))
    (key : Digest) (ns : String) (r : SqRow)
    (h : assocFind nodes (key, ns) = some r) :
    nodes.any (fun e => decide (e.1.1 = key)) = true := by
  simp only [assocFind, Option.map_eq_some'] at h
  obtain ⟨e, he, _⟩ := h
  refine List.any_eq_true.mpr ⟨e, List.mem_of_find?_eq_some he, ?_⟩
  have := List.find?_some he
  simp only [decide_eq_true_eq] at this ⊢
  rw [this]

theorem redb_get_root_node_found (s : RedbStore) (rh0 : Digest)
    (r : BranchRec) (fuel : Nat)
    (hroot : assocFind s.db.roots s.ns = some rh0)
    (hrow : assocFind s.db.branches (s.ns, rh0) = some r) :
    ∃ br, RedbStore.get_root_node (fuel + 1) s = some br ∧ br.hash = rh0 := by
  refine ⟨Branch.new_with_hash
      (redbResolveChild s (RedbStore.get_branch fuel s) r.lh)
      (redbResolveChild s (RedbStore.get_branch fuel s) r.rh) rh0 r.sum,
    ?_, rfl⟩
  unfold RedbStore.get_root_node
  rw [hroot, Option.some_bind]
  exact redb_get_branch_found s rh0 r hrow fuel

theorem sqlite_get_root_node_found (s : SqliteStore) (rh0 : Digest) (r : SqRow)
    (lh rh : Digest) (fuel : Nat)
    (hroot : assocFind s.db.roots s.ns = some rh0)
    (hrow : assocFind s.db.nodes (rh0, s.ns) = some r)
    (hl : r.lHash = some lh) (hr : r.rHash = some rh) :
    ∃ br, SqliteStore.get_root_node (fuel + 1) s = some br ∧ br.hash = rh0 := by
  refine ⟨Branch.new_with_hash
      (Branch.toNode ((SqliteStore.get_branch fuel s lh).getD Branch.empty_branch))
      (Branch.toNode ((SqliteStore.get_branch fuel s rh).getD Branch.empty_branch))
      rh0 r.sum, ?_, rfl⟩
  unfold SqliteStore.get_root_node
  rw [hroot, Option.some_bind,
    if_pos (sqlite_nodes_any_of_find s.db.nodes rh0 s.ns r hrow)]
  exact sqlite_get_branch_found s rh0 r lh rh hrow hl hr fuel

/-- C5 (amended): update_root records b's hash as the namespace's current
root, replacing any previously recorded root, and a subsequent
get_root_node returns a branch whose hash equals b's hash provided b's
branch record is present in storage under the namespace (get_root_node
reconstructs the root from storage, so an unrecorded branch yields none) —
on the key-value backend for every branch including the empty-tree root,
and on the relational backend only for branches other than the empty-tree
root, because its update_root silently skips empty roots (see the
counterexample). -/
theorem claim_C5_update_root_then_get_root
    (sR : RedbStore) (sQ : SqliteStore) (b bq : Branch) (fuel : Nat)
    (r : BranchRec) (rq : SqRow) (lh rh : Digest)
    (hR : assocFind sR.db.branches (sR.ns, b.hash) = some r)
    (hQ : assocFind sQ.db.nodes (bq.hash, sQ.ns) = some rq)
    (hql : rq.lHash = some lh) (hqr : rq.rHash = some rh)
    (hne : bq.hash ≠ emptyHash 0) :
    assocFind (RedbStore.update_root sR b).db.roots sR.ns = some b.hash
    ∧ (∃ br, RedbStore.get_root_node (fuel + 1) (RedbStore.update_root sR b)
          = some br ∧ br.hash = b.hash)
    ∧ assocFind (SqliteStore.update_root sQ bq).db.roots sQ.ns = some bq.hash
    ∧ (∃ br, SqliteStore.get_root_node (fuel + 1) (SqliteStore.update_root sQ bq)
          = some br ∧ br.hash = bq.hash) := by
  have hq' : SqliteStore.update_root sQ bq
      = { sQ with db := { sQ.db with
            roots := assocPut sQ.db.roots sQ.ns bq.hash } } := by
    unfold SqliteStore.update_root
    rw [if_neg hne]
  refine ⟨?_, ?_, ?_, ?_⟩
  · exact assocFind_put_self sR.db.roots sR.ns b.hash
  · exact redb_get_root_node_found (RedbStore.update_root sR b) b.hash r fuel
      (assocFind_put_self sR.db.roots sR.ns b.hash) hR
  · rw [hq']
    exact assocFind_put_self sQ.db.roots sQ.ns bq.hash
  · rw [hq']
    exact sqlite_get_root_node_found
      { sQ with db := { sQ.db with roots := assocPut sQ.db.roots sQ.ns bq.hash } }
      bq.hash rq lh rh fuel (assocFind_put_self sQ.db.roots sQ.ns bq.hash) hQ
      hql hqr

/-- Witness for C5's theorem: concrete stores holding one branch record each,
roots updated to that branch. -/
theorem claim_C5_update_root_then_get_root_witness :
    assocFind (RedbStore.update_root
        ⟨⟨[(("default", Digest.branchD (Digest.leafD [1] 5) (Digest.leafD [2] 3) 8),
            ⟨Digest.leafD [1] 5, Digest.leafD [2] 3, 8⟩)], [], [], []⟩, "default"⟩
        (Branch.new (NodeM.leaf [1] 5) (NodeM.leaf [2] 3))).db.roots "default"
      = some (Branch.new (NodeM.leaf [1] 5) (NodeM.leaf [2] 3)).hash
    ∧ (∃ br, RedbStore.get_root_node 1 (RedbStore.update_root
          ⟨⟨[(("default", Digest.branchD (Digest.leafD [1] 5) (Digest.leafD [2] 3) 8),
              ⟨Digest.leafD [1] 5, Digest.leafD [2] 3, 8⟩)], [], [], []⟩, "default"⟩
          (Branch.new (NodeM.leaf [1] 5) (NodeM.leaf [2] 3)))
        = some br ∧ br.hash = (Branch.new (NodeM.leaf [1] 5) (NodeM.leaf [2] 3)).hash)
    ∧ assocFind (SqliteStore.update_root
        ⟨⟨[((Digest.branchD (Digest.leafD [1] 5) (Digest.leafD [2] 3) 8, "default"),
            ⟨some (Digest.leafD [1] 5), some (Digest.leafD [2] 3), none, none, 8⟩)],
          []⟩, "default"⟩
        (Branch.new (NodeM.leaf [1] 5) (NodeM.leaf [2] 3))).db.roots "default"
      = some (Branch.new (NodeM.leaf [1] 5) (NodeM.leaf [2] 3)).hash
    ∧ (∃ br, SqliteStore.get_root_node 1 (SqliteStore.update_root
          ⟨⟨[((Digest.branchD (Digest.leafD [1] 5) (Digest.leafD [2] 3) 8, "default"),
              ⟨some (Digest.leafD [1] 5), some (Digest.leafD [2] 3), none, none, 8⟩)],
            []⟩, "default"⟩
          (Branch.new (NodeM.leaf [1] 5) (NodeM.leaf [2] 3)))
        = some br ∧ br.hash
          = (Branch.new (NodeM.leaf [1] 5) (NodeM.leaf [2] 3)).hash) :=
  claim_C5_update_root_then_get_root
    ⟨⟨[(("default", Digest.branchD (Digest.leafD [1] 5) (Digest.leafD [2] 3) 8),
        ⟨Digest.leafD [1] 5, Digest.leafD [2] 3, 8⟩)], [], [], []⟩, "default"⟩
    ⟨⟨[((Digest.branchD (Digest.leafD [1] 5) (Digest.leafD [2] 3) 8, "default"),
        ⟨some (Digest.leafD [1] 5), some (Digest.leafD [2] 3), none, none, 8⟩)],
      []⟩, "default"⟩
    (Branch.new (NodeM.leaf [1] 5) (NodeM.leaf [2] 3))
    (Branch.new (NodeM.leaf [1] 5) (NodeM.leaf [2] 3)) 0
    ⟨Digest.leafD [1] 5, Digest.leafD [2] 3, 8⟩
    ⟨some (Digest.leafD [1] 5), some (Digest.leafD [2] 3), none, none, 8⟩
    (Digest.leafD [1] 5) (Digest.leafD [2] 3)
    (by rfl) (by rfl) rfl rfl (by decide)

/-- Counterexample for C5 as stated: the relational backend's update_root
silently skips the empty-tree root.  With a root already recorded for the
namespace, update_root with the empty root leaves the store (and hence the
recorded root, which differs from the empty root's hash) unchanged. -/
theorem claim_C5_counterexample :
    SqliteStore.update_root
        ⟨⟨[], [("default",
          Digest.branchD (Digest.leafD [1] 5) (Digest.leafD [2] 3) 8)]⟩, "default"⟩
        Branch.empty_branch
      = ⟨⟨[], [("default",
          Digest.branchD (Digest.leafD [1] 5) (Digest.leafD [2] 3) 8)]⟩, "default"⟩
    ∧ Digest.branchD (Digest.leafD [1] 5) (Digest.leafD [2] 3) 8
        ≠ Branch.empty_branch.hash := by
  constructor
  · unfold SqliteStore.update_root
    rw [if_pos (show Branch.empty_branch.hash = emptyHash 0 from rfl)]
  · decide

/-- The sum the key-value backend reads back at a digest: branch record
first, then leaf, then compact leaf, else 0 (the empty fallback). -/
def RedbState.recSum (db : RedbState) (ns : String) (h : Digest) : Nat :=
  match assocFind db.branches (ns, h) with
  | some r => r.sum
  | none =>
    match assocFind db.leaves (ns, h) with
    | some l => l.sum
    | none =>
      match assocFind db.compacts (ns, h) with
      | some c => c.sum
      | none => 0

/-- A store is sum-consistent for a namespace when every branch record's sum
equals the sums read back at its two child digests — the spec's branch-sum
invariant stated on persisted records. -/
def RedbState.sumConsistent (db : RedbState) (ns : String) : Prop :=
  ∀ p ∈ db.branches, p.1.1 = ns →
    p.2.sum = db.recSum ns p.2.lh + db.recSum ns p.2.rh

/-- The recursive branch-sum invariant on reconstructed nodes: every branch
carries the sum of its two children. -/
def sumOK : NodeM → Prop
  | .branch l r _ s => s = nodeSum l + nodeSum r ∧ sumOK l ∧ sumOK r
  | _ => True

theorem emptyNodeAt_sumOK (k : Nat) : sumOK (emptyNodeAt k) := by
  induction k with
  | zero => trivial
  | succ k ih =>
      show nodeSum (emptyNodeAt k) + nodeSum (emptyNodeAt k)
          = nodeSum (emptyNodeAt k) + nodeSum (emptyNodeAt k)
        ∧ sumOK (emptyNodeAt k) ∧ sumOK (emptyNodeAt k)
      exact ⟨rfl, ih, ih⟩

theorem assocFind_mem {α β : Type} [DecidableEq α] (l : List (α × β)) (k : α)
    (v : β) (h : assocFind l k = some v) : (k, v) ∈ l := by
  simp only [assocFind, Option.map_eq_some'] at h
  obtain ⟨e, he, hv⟩ := h
  have h1 := List.find?_some he
  simp only [decide_eq_true_eq] at h1
  have hm := List.mem_of_find?_eq_some he
  rw [← h1, ← hv]
  simpa using hm

theorem redb_get_branch_none_inv (s : RedbStore) (key : Digest) (fuel : Nat)
    (h : RedbStore.get_branch (fuel + 1) s key = none) :
    assocFind s.db.branches (s.ns, key) = none := by
  cases hf : assocFind s.db.branches (s.ns, key) with
  | none => rfl
  | some r => rw [redb_get_branch_found s key r hf fuel] at h; cases h

theorem redb_reconstruction_sum (db : RedbState) (ns : String)
    (rank : Digest → Nat)
    (hacy : ∀ p ∈ db.branches, p.1.1 = ns →
      rank p.2.lh < rank p.1.2 ∧ rank p.2.rh < rank p.1.2)
    (hw : db.sumConsistent ns) :
    ∀ fuel h b, rank h < fuel →
      RedbStore.get_branch fuel ⟨db, ns⟩ h = some b →
      sumOK b.toNode ∧ b.sum = db.recSum ns h := by
  intro fuel
  induction fuel with
  | zero => intro h b hf; omega
  | succ fuel ih =>
      intro h b hf hb
      cases hfind : assocFind db.branches (ns, h) with
      | none =>
          rw [show RedbStore.get_branch (fuel + 1) ⟨db, ns⟩ h = none from by
            simp [RedbStore.get_branch, hfind]] at hb
          cases hb
      | some r =>
          rw [redb_get_branch_found ⟨db, ns⟩ h r hfind fuel] at hb
          obtain rfl := Option.some.inj hb
          have hmem := assocFind_mem db.branches (ns, h) r hfind
          have hrk : rank r.lh < rank h ∧ rank r.rh < rank h :=
            hacy ((ns, h), r) hmem rfl
          have hresolve : ∀ hd, rank hd < fuel →
              nodeSum (redbResolveChild ⟨db, ns⟩
                  (RedbStore.get_branch fuel ⟨db, ns⟩) hd)
                = db.recSum ns hd
              ∧ sumOK (redbResolveChild ⟨db, ns⟩
                  (RedbStore.get_branch fuel ⟨db, ns⟩) hd) := by
            intro hd hrkd
            cases hgb : RedbStore.get_branch fuel ⟨db, ns⟩ hd with
            | some b2 =>
                obtain ⟨hs1, hs2⟩ := ih hd b2 hrkd hgb
                simp only [redbResolveChild, hgb]
                constructor
                · show b2.sum = db.recSum ns hd
                  exact hs2
                · exact hs1
            | none =>
                obtain ⟨f2, rfl⟩ : ∃ f2, fuel = f2 + 1 :=
                  ⟨fuel - 1, by omega⟩
                have hnone := redb_get_branch_none_inv ⟨db, ns⟩ hd f2 hgb
                simp only [redbResolveChild, hgb]
                cases hlv : assocFind db.leaves (ns, hd) with
                | some lr =>
                    simp only [RedbStore.get_leaf, hlv, Option.map_some']
                    constructor
                    · show lr.sum = db.recSum ns hd
                      simp [RedbState.recSum, hnone, hlv]
                    · trivial
                | none =>
                    cases hcp : assocFind db.compacts (ns, hd) with
                    | some cr =>
                        simp only [RedbStore.get_leaf, RedbStore.get_compact_leaf,
                          hlv, hcp, Option.map_some', Option.map_none']
                        constructor
                        · show cr.sum = db.recSum ns hd
                          simp [RedbState.recSum, hnone, hlv, hcp]
                        · trivial
                    | none =>
                        simp only [RedbStore.get_leaf, RedbStore.get_compact_leaf,
                          hlv, hcp, Option.map_none']
                        constructor
                        · show nodeSum (emptyNodeAt 256) = db.recSum ns hd
                          rw [emptyNodeAt_sum]
                          simp [RedbState.recSum, hnone, hlv, hcp]
                        · exact emptyNodeAt_sumOK 256
          have hL := hresolve r.lh (by omega)
          have hR := hresolve r.rh (by omega)
          constructor
          · show r.sum
                = nodeSum (redbResolveChild ⟨db, ns⟩
                    (RedbStore.get_branch fuel ⟨db, ns⟩) r.lh)
                  + nodeSum (redbResolveChild ⟨db, ns⟩
                    (RedbStore.get_branch fuel ⟨db, ns⟩) r.rh)
              ∧ _ ∧ _
            refine ⟨?_, hL.2, hR.2⟩
            rw [hL.1, hR.1]
            exact hw ((ns, h), r) hmem rfl
          · show r.sum = db.recSum ns h
            simp [RedbState.recSum, hfind]

instance (db : RedbState) (ns : String) : Decidable (db.sumConsistent ns) := by
  unfold RedbState.sumConsistent
  infer_instance

/-- C2 (amended): on the key-value backend, for every sum-consistent store
whose branch records are acyclic (witnessed by a rank function, the model
of content-addressed links) and enough fuel, every branch read back via
get_branch — and hence the root read back via get_root_node under any
recorded root — satisfies branch.sum = left.sum + right.sum recursively
down the reconstructed subtree.  The relational backend violates this
read-back invariant through get_root_node (see the counterexample). -/
theorem claim_C2_branch_sum_invariant
    (db : RedbState) (ns : String) (rank : Digest → Nat) (fuel : Nat)
    (hacy : ∀ p ∈ db.branches, p.1.1 = ns →
      rank p.2.lh < rank p.1.2 ∧ rank p.2.rh < rank p.1.2)
    (hw : db.sumConsistent ns) :
    (∀ h b, rank h < fuel →
      RedbStore.get_branch fuel ⟨db, ns⟩ h = some b → sumOK b.toNode)
    ∧ (∀ rh0 b, assocFind db.roots ns = some rh0 → rank rh0 < fuel →
      RedbStore.get_root_node fuel ⟨db, ns⟩ = some b → sumOK b.toNode) := by
  constructor
  · intro h b hf hb
    exact (redb_reconstruction_sum db ns rank hacy hw fuel h b hf hb).1
  · intro rh0 b hroot hf hb
    have hgb : RedbStore.get_branch fuel ⟨db, ns⟩ rh0 = some b := by
      unfold RedbStore.get_root_node at hb
      rw [show assocFind (⟨db, ns⟩ : RedbStore).db.roots (⟨db, ns⟩ : RedbStore).ns
          = some rh0 from hroot, Option.some_bind] at hb
      exact hb
    exact (redb_reconstruction_sum db ns rank hacy hw fuel rh0 b hf hgb).1

/-- Witness for C2's theorem: a concrete sum-consistent two-leaf store whose
root branch reads back satisfying the recursive sum invariant. -/
theorem claim_C2_branch_sum_invariant_witness :
    sumOK (Branch.toNode (Branch.new_with_hash (NodeM.leaf [1] 5) (NodeM.leaf [2] 3)
      (Digest.branchD (Digest.leafD [1] 5) (Digest.leafD [2] 3) 8) 8)) :=
  (claim_C2_branch_sum_invariant
    ⟨[(("default", Digest.branchD (Digest.leafD [1] 5) (Digest.leafD [2] 3) 8),
        ⟨Digest.leafD [1] 5, Digest.leafD [2] 3, 8⟩)],
      [(("default", Digest.leafD [1] 5), ⟨5, [1]⟩),
        (("default", Digest.leafD [2] 3), ⟨3, [2]⟩)], [],
      [("default", Digest.branchD (Digest.leafD [1] 5) (Digest.leafD [2] 3) 8)]⟩
    "default"
    (fun hx => if hx = Digest.branchD (Digest.leafD [1] 5) (Digest.leafD [2] 3) 8
      then 1 else 0)
    2 (by decide) (by decide)).1
    (Digest.branchD (Digest.leafD [1] 5) (Digest.leafD [2] 3) 8)
    (Branch.new_with_hash (NodeM.leaf [1] 5) (NodeM.leaf [2] 3)
      (Digest.branchD (Digest.leafD [1] 5) (Digest.leafD [2] 3) 8) 8)
    (by decide) (by rfl)

/-- Counterexample for C2 as stated: on the relational backend, a store built
exactly as the insert flow would build it (two leaf rows, a branch row over
them with sum 8, and a recorded root) reads its root back through
get_root_node with both children replaced by the empty branch (sum 0), so
the returned branch has sum 8 while its children's sums add to 0. -/
theorem claim_C2_counterexample :
    SqliteStore.get_root_node 2
        ⟨⟨[((Digest.leafD [1] 5, "default"), ⟨none, none, none, some [1], 5⟩),
            ((Digest.leafD [2] 3, "default"), ⟨none, none, none, some [2], 3⟩),
            ((Digest.branchD (Digest.leafD [1] 5) (Digest.leafD [2] 3) 8, "default"),
              ⟨some (Digest.leafD [1] 5), some (Digest.leafD [2] 3), none, none, 8⟩)],
          [("default", Digest.branchD (Digest.leafD [1] 5) (Digest.leafD [2] 3) 8)]⟩,
          "default"⟩
      = some (Branch.new_with_hash (Branch.toNode Branch.empty_branch)
          (Branch.toNode Branch.empty_branch)
          (Digest.branchD (Digest.leafD [1] 5) (Digest.leafD [2] 3) 8) 8)
    ∧ ¬ sumOK (Branch.toNode (Branch.new_with_hash
          (Branch.toNode Branch.empty_branch) (Branch.toNode Branch.empty_branch)
          (Digest.branchD (Digest.leafD [1] 5) (Digest.leafD [2] 3) 8) 8)) := by
  constructor
  · rfl
  · intro hs
    have h8 : (8 : Nat) = nodeSum (Branch.toNode Branch.empty_branch)
        + nodeSum (Branch.toNode Branch.empty_branch) := hs.1
    have hz : nodeSum (Branch.toNode Branch.empty_branch) = 0 := by
      show nodeSum (emptyNodeAt 255) + nodeSum (emptyNodeAt 255) = 0
      rw [emptyNodeAt_sum]
    rw [hz] at h8
    exact absurd h8 (by omega)

theorem redb_get_leaf_congr (db1 db2 : RedbState) (B : String)
    (hlv : ∀ h, assocFind db1.leaves (B, h) = assocFind db2.leaves (B, h)) :
    ∀ h, RedbStore.get_leaf ⟨db1, B⟩ h = RedbStore.get_leaf ⟨db2, B⟩ h := by
  intro h
  show (assocFind db1.leaves (B, h)).map (fun r => (⟨r.value, r.sum⟩ : Leaf))
    = (assocFind db2.leaves (B, h)).map (fun r => (⟨r.value, r.sum⟩ : Leaf))
  rw [hlv h]

theorem redb_get_compact_congr (db1 db2 : RedbState) (B : String)
    (hcp : ∀ h, assocFind db1.compacts (B, h) = assocFind db2.compacts (B, h)) :
    ∀ h, RedbStore.get_compact_leaf ⟨db1, B⟩ h
      = RedbStore.get_compact_leaf ⟨db2, B⟩ h := by
  intro h
  show (assocFind db1.compacts (B, h)).map
      (fun r => CompactLeaf.new_with_hash h ⟨r.value, r.sum⟩ r.key)
    = (assocFind db2.compacts (B, h)).map
      (fun r => CompactLeaf.new_with_hash h ⟨r.value, r.sum⟩ r.key)
  rw [hcp h]

theorem redbResolveChild_congr (s1 s2 : RedbStore)
    (p1 p2 : Digest → Option Branch) (hp : ∀ h, p1 h = p2 h)
    (hlv : ∀ h, s1.get_leaf h = s2.get_leaf h)
    (hcp : ∀ h, s1.get_compact_leaf h = s2.get_compact_leaf h) :
    ∀ h, redbResolveChild s1 p1 h = redbResolveChild s2 p2 h := by
  intro h
  unfold redbResolveChild
  rw [hp h, hlv h, hcp h]

theorem redb_get_branch_congr (db1 db2 : RedbState) (B : String)
    (hbr : ∀ h, assocFind db1.branches (B, h) = assocFind db2.branches (B, h))
    (hlv : ∀ h, assocFind db1.leaves (B, h) = assocFind db2.leaves (B, h))
    (hcp : ∀ h, assocFind db1.compacts (B, h) = assocFind db2.compacts (B, h)) :
    ∀ fuel h, RedbStore.get_branch fuel ⟨db1, B⟩ h
      = RedbStore.get_branch fuel ⟨db2, B⟩ h := by
  intro fuel
  induction fuel with
  | zero => intro h; rfl
  | succ fuel ih =>
      intro h
      cases hf : assocFind db1.branches (B, h) with
      | none =>
          have hf2 : assocFind db2.branches (B, h) = none := (hbr h).symm.trans hf
          rw [redb_get_branch_none ⟨db1, B⟩ h hf (fuel + 1),
            redb_get_branch_none ⟨db2, B⟩ h hf2 (fuel + 1)]
      | some r =>
          have hf2 : assocFind db2.branches (B, h) = some r := (hbr h).symm.trans hf
          rw [redb_get_branch_found ⟨db1, B⟩ h r hf fuel,
            redb_get_branch_found ⟨db2, B⟩ h r hf2 fuel]
          have hres := redbResolveChild_congr ⟨db1, B⟩ ⟨db2, B⟩
            (RedbStore.get_branch fuel ⟨db1, B⟩) (RedbStore.get_branch fuel ⟨db2, B⟩)
            ih (redb_get_leaf_congr db1 db2 B hlv) (redb_get_compact_congr db1 db2 B hcp)
          rw [hres r.lh, hres r.rh]

theorem redb_childAt_congr (db1 db2 : RedbState) (B : String)
    (hbr : ∀ h, assocFind db1.branches (B, h) = assocFind db2.branches (B, h))
    (hlv : ∀ h, assocFind db1.leaves (B, h) = assocFind db2.leaves (B, h))
    (hcp : ∀ h, assocFind db1.compacts (B, h) = assocFind db2.compacts (B, h))
    (fuel : Nat) :
    ∀ height h, RedbStore.childAt fuel ⟨db1, B⟩ height h
      = RedbStore.childAt fuel ⟨db2, B⟩ height h := by
  intro height h
  unfold RedbStore.childAt
  rw [redb_get_branch_congr db1 db2 B hbr hlv hcp fuel h,
    redb_get_leaf_congr db1 db2 B hlv h, redb_get_compact_congr db1 db2 B hcp h]

theorem redb_get_children_congr (db1 db2 : RedbState) (B : String)
    (hbr : ∀ h, assocFind db1.branches (B, h) = assocFind db2.branches (B, h))
    (hlv : ∀ h, assocFind db1.leaves (B, h) = assocFind db2.leaves (B, h))
    (hcp : ∀ h, assocFind db1.compacts (B, h) = assocFind db2.compacts (B, h))
    (fuel height : Nat) (key : Digest) :
    RedbStore.get_children fuel ⟨db1, B⟩ height key
      = RedbStore.get_children fuel ⟨db2, B⟩ height key := by
  unfold RedbStore.get_children
  simp only [redb_childAt_congr db1 db2 B hbr hlv hcp fuel]

theorem redb_get_root_node_congr (db1 db2 : RedbState) (B : String)
    (hbr : ∀ h, assocFind db1.branches (B, h) = assocFind db2.branches (B, h))
    (hlv : ∀ h, assocFind db1.leaves (B, h) = assocFind db2.leaves (B, h))
    (hcp : ∀ h, assocFind db1.compacts (B, h) = assocFind db2.compacts (B, h))
    (hrt : assocFind db1.roots B = assocFind db2.roots B) (fuel : Nat) :
    RedbStore.get_root_node fuel ⟨db1, B⟩ = RedbStore.get_root_node fuel ⟨db2, B⟩ := by
  unfold RedbStore.get_root_node
  show (assocFind db1.roots B).bind (fun rh => RedbStore.get_branch fuel ⟨db1, B⟩ rh)
    = (assocFind db2.roots B).bind (fun rh => RedbStore.get_branch fuel ⟨db2, B⟩ rh)
  rw [hrt]
  cases assocFind db2.roots B with
  | none => rfl
  | some rh => simp only [Option.some_bind,
      redb_get_branch_congr db1 db2 B hbr hlv hcp fuel rh]

theorem redb_apply_frame (db : RedbState) (A B : String) (hAB : B ≠ A)
    (op : TreeOp) :
    (∀ h, assocFind (RedbStore.applyOp ⟨db, A⟩ op).db.branches (B, h)
        = assocFind db.branches (B, h))
    ∧ (∀ h, assocFind (RedbStore.applyOp ⟨db, A⟩ op).db.leaves (B, h)
        = assocFind db.leaves (B, h))
    ∧ (∀ h, assocFind (RedbStore.applyOp ⟨db, A⟩ op).db.compacts (B, h)
        = assocFind db.compacts (B, h))
    ∧ assocFind (RedbStore.applyOp ⟨db, A⟩ op).db.roots B
        = assocFind db.roots B := by
  have hne : ∀ (x h : Digest), ((B, h) : String × Digest) ≠ (A, x) :=
    fun x h hh => hAB (congrArg Prod.fst hh)
  cases op with
  | insLeaf l =>
      exact ⟨fun h => rfl, fun h => assocFind_put_other _ _ _ _ (hne _ h),
        fun h => rfl, rfl⟩
  | insBranch b =>
      exact ⟨fun h => assocFind_put_other _ _ _ _ (hne _ h), fun h => rfl,
        fun h => rfl, rfl⟩
  | insCompact c =>
      exact ⟨fun h => rfl, fun h => rfl,
        fun h => assocFind_put_other _ _ _ _ (hne _ h), rfl⟩
  | delLeaf hd =>
      exact ⟨fun h => rfl, fun h => assocFind_del_other _ _ _ (hne _ h),
        fun h => rfl, rfl⟩
  | delBranch hd =>
      exact ⟨fun h => assocFind_del_other _ _ _ (hne _ h), fun h => rfl,
        fun h => rfl, rfl⟩
  | delCompact hd =>
      exact ⟨fun h => rfl, fun h => rfl,
        fun h => assocFind_del_other _ _ _ (hne _ h), rfl⟩
  | updRoot b =>
      exact ⟨fun h => rfl, fun h => rfl, fun h => rfl,
        assocFind_put_other _ _ _ _ hAB⟩

theorem sqlite_get_branch_none (s : SqliteStore) (key : Digest)
    (h : assocFind s.db.nodes (key, s.ns) = none) :
    ∀ fuel, SqliteStore.get_branch fuel s key = none
  | 0 => rfl
  | fuel + 1 => by simp [SqliteStore.get_branch, h]

theorem sqlite_get_branch_notbranch (s : SqliteStore) (key : Digest)
    (r : SqRow) (fuel : Nat)
    (h : assocFind s.db.nodes (key, s.ns) = some r)
    (hlr : r.lHash = none ∨ r.rHash = none) :
    SqliteStore.get_branch (fuel + 1) s key = none := by
  cases hl : r.lHash with
  | none => simp [SqliteStore.get_branch, h, hl]
  | some lh =>
      cases hr : r.rHash with
      | none => simp [SqliteStore.get_branch, h, hl, hr]
      | some rh =>
          cases hlr with
          | inl h2 => rw [h2] at hl; cases hl
          | inr h2 => rw [h2] at hr; cases hr

theorem sqlite_get_leaf_congr (db1 db2 : SqliteState) (B : String)
    (hn : ∀ h, assocFind db1.nodes (h, B) = assocFind db2.nodes (h, B)) :
    ∀ h, SqliteStore.get_leaf ⟨db1, B⟩ h = SqliteStore.get_leaf ⟨db2, B⟩ h := by
  intro h
  unfold SqliteStore.get_leaf
  simp only [hn]

theorem sqlite_get_branch_congr (db1 db2 : SqliteState) (B : String)
    (hn : ∀ h, assocFind db1.nodes (h, B) = assocFind db2.nodes (h, B)) :
    ∀ fuel h, SqliteStore.get_branch fuel ⟨db1, B⟩ h
      = SqliteStore.get_branch fuel ⟨db2, B⟩ h := by
  intro fuel
  induction fuel with
  | zero => intro h; rfl
  | succ fuel ih =>
      intro h
      cases hf : assocFind db1.nodes (h, B) with
      | none =>
          rw [sqlite_get_branch_none ⟨db1, B⟩ h hf (fuel + 1),
            sqlite_get_branch_none ⟨db2, B⟩ h ((hn h).symm.trans hf) (fuel + 1)]
      | some r =>
          have hf2 : assocFind db2.nodes (h, B) = some r := (hn h).symm.trans hf
          cases hl : r.lHash with
          | none =>
              rw [sqlite_get_branch_notbranch ⟨db1, B⟩ h r fuel hf (Or.inl hl),
                sqlite_get_branch_notbranch ⟨db2, B⟩ h r fuel hf2 (Or.inl hl)]
          | some lh =>
              cases hr : r.rHash with
              | none =>
                  rw [sqlite_get_branch_notbranch ⟨db1, B⟩ h r fuel hf (Or.inr hr),
                    sqlite_get_branch_notbranch ⟨db2, B⟩ h r fuel hf2 (Or.inr hr)]
              | some rh =>
                  rw [sqlite_get_branch_found ⟨db1, B⟩ h r lh rh hf hl hr fuel,
                    sqlite_get_branch_found ⟨db2, B⟩ h r lh rh hf2 hl hr fuel,
                    ih lh, ih rh]

theorem sqlite_get_children_congr (db1 db2 : SqliteState) (B : String)
    (hn : ∀ h, assocFind db1.nodes (h, B) = assocFind db2.nodes (h, B))
    (height : Nat) (key : Digest) :
    SqliteStore.get_children ⟨db1, B⟩ height key
      = SqliteStore.get_children ⟨db2, B⟩ height key := by
  unfold SqliteStore.get_children
  simp only [hn]

theorem sqlite_get_root_node_congr (db1 db2 : SqliteState) (B : String)
    (hn : ∀ h, assocFind db1.nodes (h, B) = assocFind db2.nodes (h, B))
    (hrt : assocFind db1.roots B = assocFind db2.roots B) (fuel : Nat) :
    SqliteStore.get_root_node fuel ⟨db1, B⟩
      = SqliteStore.get_root_node fuel ⟨db2, B⟩ := by
  show (assocFind db1.roots B).bind (fun rh =>
      if db1.nodes.any (fun e => decide (e.1.1 = rh)) then
        SqliteStore.get_branch fuel ⟨db1, B⟩ rh
      else none)
    = (assocFind db2.roots B).bind (fun rh =>
      if db2.nodes.any (fun e => decide (e.1.1 = rh)) then
        SqliteStore.get_branch fuel ⟨db2, B⟩ rh
      else none)
  rw [hrt]
  cases hroot : assocFind db2.roots B with
  | none => rfl
  | some rh =>
      simp only [Option.some_bind]
      cases hf : assocFind db2.nodes (rh, B) with
      | some r =>
          rw [if_pos (sqlite_nodes_any_of_find db1.nodes rh B r ((hn rh).trans hf)),
            if_pos (sqlite_nodes_any_of_find db2.nodes rh B r hf),
            sqlite_get_branch_congr db1 db2 B hn fuel rh]
      | none =>
          have g1 : SqliteStore.get_branch fuel ⟨db1, B⟩ rh = none :=
            sqlite_get_branch_none ⟨db1, B⟩ rh ((hn rh).trans hf) fuel
          have g2 : SqliteStore.get_branch fuel ⟨db2, B⟩ rh = none :=
            sqlite_get_branch_none ⟨db2, B⟩ rh hf fuel
          by_cases h1 : db1.nodes.any (fun e => decide (e.1.1 = rh)) = true
          · rw [if_pos h1]
            by_cases h2 : db2.nodes.any (fun e => decide (e.1.1 = rh)) = true
            · rw [if_pos h2, g1, g2]
            · rw [if_neg h2, g1]
          · rw [if_neg h1]
            by_cases h2 : db2.nodes.any (fun e => decide (e.1.1 = rh)) = true
            · rw [if_pos h2, g2]
            · rw [if_neg h2]

theorem sqlite_apply_frame (db : SqliteState) (A B : String) (hAB : B ≠ A)
    (op : TreeOp) :
    (∀ h, assocFind (SqliteStore.applyOp ⟨db, A⟩ op).db.nodes (h, B)
        = assocFind db.nodes (h, B))
    ∧ assocFind (SqliteStore.applyOp ⟨db, A⟩ op).db.roots B
        = assocFind db.roots B := by
  have hne : ∀ (x h : Digest), ((h, B) : Digest × String) ≠ (x, A) :=
    fun x h hh => hAB (congrArg Prod.snd hh)
  cases op with
  | insLeaf l =>
      cases hf : assocFind db.nodes (l.hash, A) with
      | some r =>
          have happ : SqliteStore.applyOp ⟨db, A⟩ (TreeOp.insLeaf l) = ⟨db, A⟩ := by
            simp [SqliteStore.applyOp, SqliteStore.insert_leaf, hf]
          rw [happ]
          exact ⟨fun h => rfl, rfl⟩
      | none =>
          have happ : SqliteStore.applyOp ⟨db, A⟩ (TreeOp.insLeaf l)
              = ⟨⟨assocPut db.nodes (l.hash, A)
                  ⟨none, none, none, some l.value, l.sum⟩, db.roots⟩, A⟩ := by
            simp [SqliteStore.applyOp, SqliteStore.insert_leaf, hf]
          rw [happ]
          exact ⟨fun h => assocFind_put_other _ _ _ _ (hne _ h), rfl⟩
  | insBranch b =>
      cases hf : assocFind db.nodes (b.hash, A) with
      | some r =>
          have happ : SqliteStore.applyOp ⟨db, A⟩ (TreeOp.insBranch b) = ⟨db, A⟩ := by
            simp [SqliteStore.applyOp, SqliteStore.insert_branch, hf,
              Except.toOption]
          rw [happ]
          exact ⟨fun h => rfl, rfl⟩
      | none =>
          have happ : SqliteStore.applyOp ⟨db, A⟩ (TreeOp.insBranch b)
              = ⟨⟨assocPut db.nodes (b.hash, A)
                  ⟨some (nodeHash b.left), some (nodeHash b.right), none, none,
                    b.sum⟩, db.roots⟩, A⟩ := by
            simp [SqliteStore.applyOp, SqliteStore.insert_branch, hf,
              Except.toOption]
          rw [happ]
          exact ⟨fun h => assocFind_put_other _ _ _ _ (hne _ h), rfl⟩
  | insCompact c =>
      cases hf : assocFind db.nodes (c.hash, A) with
      | some r =>
          have happ : SqliteStore.applyOp ⟨db, A⟩ (TreeOp.insCompact c) = ⟨db, A⟩ := by
            simp [SqliteStore.applyOp, SqliteStore.insert_compact_leaf, hf,
              Except.toOption]
          rw [happ]
          exact ⟨fun h => rfl, rfl⟩
      | none =>
          have happ : SqliteStore.applyOp ⟨db, A⟩ (TreeOp.insCompact c)
              = ⟨⟨assocPut db.nodes (c.hash, A)
                  ⟨none, none, some c.key, some c.leaf.value, c.leaf.sum⟩,
                  db.roots⟩, A⟩ := by
            simp [SqliteStore.applyOp, SqliteStore.insert_compact_leaf, hf,
              Except.toOption]
          rw [happ]
          exact ⟨fun h => assocFind_put_other _ _ _ _ (hne _ h), rfl⟩
  | delLeaf hd =>
      exact ⟨fun h => assocFind_del_other _ _ _ (hne _ h), rfl⟩
  | delBranch hd =>
      exact ⟨fun h => assocFind_del_other _ _ _ (hne _ h), rfl⟩
  | delCompact hd =>
      exact ⟨fun h => assocFind_del_other _ _ _ (hne _ h), rfl⟩
  | updRoot b =>
      by_cases hb : b.hash = emptyHash 0
      · have happ : SqliteStore.applyOp ⟨db, A⟩ (TreeOp.updRoot b) = ⟨db, A⟩ := by
          simp [SqliteStore.applyOp, SqliteStore.update_root, hb]
        rw [happ]
        exact ⟨fun h => rfl, rfl⟩
      · have happ : SqliteStore.applyOp ⟨db, A⟩ (TreeOp.updRoot b)
            = ⟨⟨db.nodes, assocPut db.roots A b.hash⟩, A⟩ := by
          simp [SqliteStore.applyOp, SqliteStore.update_root, hb]
        rw [happ]
        exact ⟨fun h => rfl, assocFind_put_other _ _ _ _ hAB⟩

/-- C7: namespace isolation.  For every two distinct namespaces A and B on
the same physical store, every insert, delete, or update_root performed
while the current namespace is A leaves the results of get_leaf,
get_children, and get_root_node under namespace B unchanged — on both
backends, for all namespace strings and all operations of the contract. -/
theorem claim_C7_namespace_isolation
    (dbR : RedbState) (dbQ : SqliteState) (op : TreeOp) (A B : String)
    (hAB : B ≠ A) (fuel height : Nat) (k : Digest) :
    RedbStore.get_leaf ⟨(RedbStore.applyOp ⟨dbR, A⟩ op).db, B⟩ k
      = RedbStore.get_leaf ⟨dbR, B⟩ k
    ∧ RedbStore.get_children fuel ⟨(RedbStore.applyOp ⟨dbR, A⟩ op).db, B⟩ height k
      = RedbStore.get_children fuel ⟨dbR, B⟩ height k
    ∧ RedbStore.get_root_node fuel ⟨(RedbStore.applyOp ⟨dbR, A⟩ op).db, B⟩
      = RedbStore.get_root_node fuel ⟨dbR, B⟩
    ∧ SqliteStore.get_leaf ⟨(SqliteStore.applyOp ⟨dbQ, A⟩ op).db, B⟩ k
      = SqliteStore.get_leaf ⟨dbQ, B⟩ k
    ∧ SqliteStore.get_children ⟨(SqliteStore.applyOp ⟨dbQ, A⟩ op).db, B⟩ height k
      = SqliteStore.get_children ⟨dbQ, B⟩ height k
    ∧ SqliteStore.get_root_node fuel ⟨(SqliteStore.applyOp ⟨dbQ, A⟩ op).db, B⟩
      = SqliteStore.get_root_node fuel ⟨dbQ, B⟩ := by
  obtain ⟨hbr, hlv, hcp, hrt⟩ := redb_apply_frame dbR A B hAB op
  obtain ⟨hn, hqrt⟩ := sqlite_apply_frame dbQ A B hAB op
  exact ⟨redb_get_leaf_congr _ _ B hlv k,
    redb_get_children_congr _ _ B hbr hlv hcp fuel height k,
    redb_get_root_node_congr _ _ B hbr hlv hcp hrt fuel,
    sqlite_get_leaf_congr _ _ B hn k,
    sqlite_get_children_congr _ _ B hn height k,
    sqlite_get_root_node_congr _ _ B hn hqrt fuel⟩

/-- Witness for C7: a concrete leaf insert in namespace "a" leaves the
reads of namespace "b" unchanged on both backends. -/
theorem claim_C7_namespace_isolation_witness :
    RedbStore.get_leaf
        ⟨(RedbStore.applyOp ⟨RedbState.empty, "a"⟩ (TreeOp.insLeaf ⟨[1], 2⟩)).db, "b"⟩
        (Digest.leafD [1] 5)
      = RedbStore.get_leaf ⟨RedbState.empty, "b"⟩ (Digest.leafD [1] 5)
    ∧ RedbStore.get_children 1
        ⟨(RedbStore.applyOp ⟨RedbState.empty, "a"⟩ (TreeOp.insLeaf ⟨[1], 2⟩)).db, "b"⟩
        255 (Digest.leafD [1] 5)
      = RedbStore.get_children 1 ⟨RedbState.empty, "b"⟩ 255 (Digest.leafD [1] 5)
    ∧ RedbStore.get_root_node 1
        ⟨(RedbStore.applyOp ⟨RedbState.empty, "a"⟩ (TreeOp.insLeaf ⟨[1], 2⟩)).db, "b"⟩
      = RedbStore.get_root_node 1 ⟨RedbState.empty, "b"⟩
    ∧ SqliteStore.get_leaf
        ⟨(SqliteStore.applyOp ⟨SqliteState.empty, "a"⟩ (TreeOp.insLeaf ⟨[1], 2⟩)).db, "b"⟩
        (Digest.leafD [1] 5)
      = SqliteStore.get_leaf ⟨SqliteState.empty, "b"⟩ (Digest.leafD [1] 5)
    ∧ SqliteStore.get_children
        ⟨(SqliteStore.applyOp ⟨SqliteState.empty, "a"⟩ (TreeOp.insLeaf ⟨[1], 2⟩)).db, "b"⟩
        255 (Digest.leafD [1] 5)
      = SqliteStore.get_children ⟨SqliteState.empty, "b"⟩ 255 (Digest.leafD [1] 5)
    ∧ SqliteStore.get_root_node 1
        ⟨(SqliteStore.applyOp ⟨SqliteState.empty, "a"⟩ (TreeOp.insLeaf ⟨[1], 2⟩)).db, "b"⟩
      = SqliteStore.get_root_node 1 ⟨SqliteState.empty, "b"⟩ :=
  claim_C7_namespace_isolation RedbState.empty SqliteState.empty
    (TreeOp.insLeaf ⟨[1], 2⟩) "a" "b" (by decide) 1 255 (Digest.leafD [1] 5)
